import Mathlib

/-!
Shallow embedding of the rlox pipeline (src/scanner.rs, src/token.rs,
src/parser.rs, src/environment.rs, src/interpreter.rs).

Modelling conventions, used throughout:
* Rust `String` values become Lean `String`; source text is processed as its
  `List Char`.  The Rust scanner indexes by byte for `is_at_end` and slices
  lexemes by byte range while reading characters with `chars().nth`; on ASCII
  sources (all inputs considered here) byte positions and character positions
  coincide, and the embedding follows the character view.  Index-based cursors
  (`start`/`current`) are rendered as "remaining input" lists; a lexeme
  `source[start..current]` is exactly the run of characters consumed since the
  token started, which the embedded helpers return directly.
* Rust `f64` values are modelled by `FVal`: exact rationals plus the special
  values `inf`, `-inf` and `NaN`.  `parseF64` implements the grammar accepted
  by Rust's `f64::from_str` (so `isNumberS` agrees exactly with
  `parse::<f64>().is_ok()`); arithmetic is exact rational arithmetic, which
  agrees with `f64` on the small exactly-representable values exercised here
  (rounding, overflow-to-infinity and negative zero are not modelled).
  `renderQ` mirrors `f64`'s `Display` on such values: integral values print
  with no fractional part.
* Rust `Option`/`Result` returns become `Option`/sum-like inductives; a Rust
  `panic!` (an `unwrap` of `None`, a `todo!` or `unreachable!`) is a distinct
  constructor, never conflated with an error return.
* `HashMap<String, String>` becomes an association list; only `insert`,
  `get` and `contains_key` are used, so iteration order is irrelevant.
* Loops whose progress is driven by the statement tree alone are structural;
  the interpreter's `while` loop and the parser's recursive descent take a
  fuel argument, and running out of fuel is a distinct `timeout` result so
  that no theorem can mistake fuel exhaustion for program behaviour.
-/

/-- Character constants written via code points to keep the file ASCII-clean:
single quote, backtick, left brace, right brace. -/
def squoteChar : Char := Char.ofNat 39

def btickChar : Char := Char.ofNat 96

def lbraceChar : Char := Char.ofNat 123

def rbraceChar : Char := Char.ofNat 125

/-! ## The f64 value model -/

/-- Model of an `f64` runtime number: an exact rational or a special value. -/
inductive FVal where
  | finite (q : ℚ)
  | inf
  | ninf
  | nan
deriving DecidableEq

/-- Numeric value of an ASCII digit character. -/
def digitVal (c : Char) : Nat := c.toNat - 48

/-! Rational arithmetic helpers.  Batteries marks `Rat.add` and friends
`@[irreducible]`, which blocks kernel evaluation inside `decide`; these
equivalents are built from `mkRat` (which the kernel reduces) and proved
equal to the standard operations just below. -/

/-- Kernel-reducible rational addition. -/
def qAdd (a b : ℚ) : ℚ :=
  mkRat (a.num * (b.den : Int) + b.num * (a.den : Int)) (a.den * b.den)

/-- Kernel-reducible rational multiplication. -/
def qMul (a b : ℚ) : ℚ := mkRat (a.num * b.num) (a.den * b.den)

/-- Kernel-reducible rational division (`qDiv a 0 = 0`, as in `ℚ`). -/
def qDiv (a b : ℚ) : ℚ :=
  if b.num < 0 then mkRat (-(a.num * (b.den : Int))) (a.den * b.num.natAbs)
  else mkRat (a.num * (b.den : Int)) (a.den * b.num.natAbs)

/-- Kernel-reducible `10 ^ n` in `ℚ`. -/
def qPow10 (n : Nat) : ℚ := mkRat ((10 : Int) ^ n) 1

/-- Consume a run of ASCII digits, accumulating their value and count
(mirrors the digit-run parts of Rust's float grammar). -/
def takeDigitsNat : List Char → Nat → Nat → (Nat × Nat × List Char)
  | [], acc, n => (acc, n, [])
  | c :: rest, acc, n =>
    if c.isDigit then takeDigitsNat rest (acc * 10 + digitVal c) (n + 1)
    else (acc, n, c :: rest)

/-- Parse the significand part of Rust's `f64::from_str` grammar:
`Digits .? Digits? | . Digits`. -/
def parseSignificand (cs : List Char) : Option (ℚ × List Char) :=
  let (ip, n1, r1) := takeDigitsNat cs 0 0
  if n1 = 0 then
    match r1 with
    | '.' :: r2 =>
      let (fp, n2, r3) := takeDigitsNat r2 0 0
      if n2 = 0 then none else some (mkRat (fp : Int) ((10 : Nat) ^ n2), r3)
    | _ => none
  else
    match r1 with
    | '.' :: r2 =>
      let (fp, n2, r3) := takeDigitsNat r2 0 0
      some (mkRat ((ip : Int) * (10 : Int) ^ n2 + (fp : Int)) ((10 : Nat) ^ n2), r3)
    | _ => some ((ip : ℚ), r1)

/-- Model of `s.parse::<f64>()`: Rust's grammar is
`[+-]? (inf | infinity | nan (case-insensitive) | Significand Exp?)` with
`Exp ::= (e|E) [+-]? Digits`.  Returns `none` exactly when Rust's
`parse::<f64>()` returns `Err`. -/
def parseF64 (s : String) : Option FVal :=
  let cs := s.data
  let (neg, cs1) : Bool × List Char :=
    match cs with
    | '+' :: r => (false, r)
    | '-' :: r => (true, r)
    | _ => (false, cs)
  let low := cs1.map Char.toLower
  if low = "inf".data ∨ low = "infinity".data then
    some (if neg then .ninf else .inf)
  else if low = "nan".data then some .nan
  else
    match parseSignificand cs1 with
    | none => none
    | some (q, r2) =>
      match r2 with
      | [] => some (.finite (if neg then -q else q))
      | c :: r3 =>
        if c = 'e' ∨ c = 'E' then
          let (eneg, r4) : Bool × List Char :=
            match r3 with
            | '+' :: r => (false, r)
            | '-' :: r => (true, r)
            | _ => (false, r3)
          let (ev, ne, r5) := takeDigitsNat r4 0 0
          if ne = 0 ∨ r5 ≠ [] then none
          else
            let q' := if eneg then qDiv q (qPow10 ev) else qMul q (qPow10 ev)
            some (.finite (if neg then -q' else q'))
        else none

/-- Model of `Interpreter::is_number` (interpreter.rs:374):
`string.parse::<f64>().is_ok()`. -/
def is_number (s : String) : Bool := (parseF64 s).isSome

/-- Model of `Interpreter::is_alpha` (interpreter.rs:378):
`string.parse::<f64>().is_err()`. -/
def is_alpha (s : String) : Bool := (parseF64 s).isNone

/-- Parse after a successful `is_number` check, as the interpreter's
`parse::<f64>().unwrap()` calls do. -/
def parseF64D (s : String) : FVal := (parseF64 s).getD .nan

/-- Negation on the f64 model. -/
def FVal.neg : FVal → FVal
  | .finite q => .finite (-q)
  | .inf => .ninf
  | .ninf => .inf
  | .nan => .nan

/-- Addition on the f64 model (exact on finite values; `qAdd` is rational
addition, see `qAdd_eq`). -/
def FVal.add : FVal → FVal → FVal
  | .finite a, .finite b => .finite (qAdd a b)
  | .nan, _ => .nan
  | _, .nan => .nan
  | .inf, .ninf => .nan
  | .ninf, .inf => .nan
  | .inf, _ => .inf
  | _, .inf => .inf
  | .ninf, _ => .ninf
  | _, .ninf => .ninf

/-- Subtraction on the f64 model. -/
def FVal.sub (a b : FVal) : FVal := a.add b.neg

/-- Multiplication on the f64 model (`qMul` is rational multiplication, see
`qMul_eq`). -/
def FVal.mul : FVal → FVal → FVal
  | .finite a, .finite b => .finite (qMul a b)
  | .nan, _ => .nan
  | _, .nan => .nan
  | .inf, .inf => .inf
  | .inf, .ninf => .ninf
  | .ninf, .inf => .ninf
  | .ninf, .ninf => .inf
  | .inf, .finite q => if q = 0 then .nan else if 0 < q then .inf else .ninf
  | .finite q, .inf => if q = 0 then .nan else if 0 < q then .inf else .ninf
  | .ninf, .finite q => if q = 0 then .nan else if 0 < q then .ninf else .inf
  | .finite q, .ninf => if q = 0 then .nan else if 0 < q then .ninf else .inf

/-- Division on the f64 model (division by zero follows IEEE: `0/0` is NaN,
otherwise signed infinity; the sign of zero is not modelled). -/
def FVal.div : FVal → FVal → FVal
  | .finite a, .finite b =>
    if b = 0 then (if a = 0 then .nan else if 0 < a then .inf else .ninf)
    else .finite (qDiv a b)
  | .nan, _ => .nan
  | _, .nan => .nan
  | .inf, .inf => .nan
  | .inf, .ninf => .nan
  | .ninf, .inf => .nan
  | .ninf, .ninf => .nan
  | .inf, .finite q => if 0 ≤ q then .inf else .ninf
  | .ninf, .finite q => if 0 ≤ q then .ninf else .inf
  | .finite _, .inf => .finite 0
  | .finite _, .ninf => .finite 0

/-- Strict less-than on the f64 model (false whenever NaN is involved). -/
def FVal.ltF : FVal → FVal → Bool
  | .finite a, .finite b => decide (a < b)
  | .nan, _ => false
  | _, .nan => false
  | .inf, _ => false
  | .ninf, .ninf => false
  | .ninf, _ => true
  | .finite _, .inf => true
  | .finite _, .ninf => false

/-- Less-or-equal on the f64 model (false whenever NaN is involved). -/
def FVal.leF : FVal → FVal → Bool
  | .finite a, .finite b => decide (a ≤ b)
  | .nan, _ => false
  | _, .nan => false
  | .ninf, _ => true
  | .inf, .inf => true
  | .inf, _ => false
  | .finite _, .inf => true
  | .finite _, .ninf => false

/-- Fractional digits of a rational in `[0,1)`, most significant first. -/
def fracDigitsAux : ℚ → Nat → List Char
  | _, 0 => []
  | q, n + 1 =>
    let q10 := qMul q 10
    let d := q10.floor
    Char.ofNat (48 + d.toNat) :: fracDigitsAux (qAdd q10 (mkRat (-d) 1)) n

/-- Model of `f64`'s `Display` on an exact rational: integral values render
with no fractional part (`90.0` prints as `90`), other values as a decimal
expansion (truncated at 17 fractional digits, trailing zeros dropped). -/
def renderQ (q : ℚ) : String :=
  if q.den = 1 then toString q.num
  else
    let sgn := if q < 0 then "-" else ""
    let aq := |q|
    let ip := aq.floor
    let ds := fracDigitsAux (qAdd aq (mkRat (-ip) 1)) 17
    let ds' := (ds.reverse.dropWhile (fun c => c = '0')).reverse
    sgn ++ toString ip ++ "." ++ String.mk ds'

/-- Model of `f64`'s `Display`/`to_string` on the f64 model. -/
def renderF64 : FVal → String
  | .finite q => renderQ q
  | .inf => "inf"
  | .ninf => "-inf"
  | .nan => "NaN"

/-- Model of Rust's `bool::to_string`. -/
def boolStr (b : Bool) : String := if b then "true" else "false"

/-! ## Tokens (src/token.rs) -/

/-- Mirror of the Rust closed enumeration `TokenType` (token.rs:2). -/
inductive TokenType where
  | LeftParen | RightParen | LeftBrace | RightBrace
  | Comma | Dot | Minus | Plus | Semicolon | Slash | Star
  | Qmark | Colon
  | Bang | BangEqual
  | Equal | EqualEqual
  | Greater | GreaterEqual
  | Less | LessEqual
  | Identifier | String | Number
  | And | Else | False | For | If | Nil | Or
  | Print | True | Var | While
  | EOF
deriving DecidableEq

/-- Mirror of the Rust struct `Token` (token.rs:25). -/
structure Token where
  token_type : TokenType
  lexeme : String
  line : Nat
deriving DecidableEq

/-! ## Scanner (src/scanner.rs) -/

/-- Keyword table of `Scanner::new` (scanner.rs:18), as
`keywords.get(lexeme).unwrap_or(Identifier)`. -/
def keywordType (s : String) : TokenType :=
  if s = "and" then .And
  else if s = "while" then .While
  else if s = "var" then .Var
  else if s = "true" then .True
  else if s = "print" then .Print
  else if s = "or" then .Or
  else if s = "nil" then .Nil
  else if s = "if" then .If
  else if s = "for" then .For
  else if s = "false" then .False
  else if s = "else" then .Else
  else .Identifier

/-- The string-literal loop of `Scanner::string` (scanner.rs:189): consume up
to the closing quote, counting newlines; `none` models reaching end of input
(the unterminated-string `LexError`).  On success returns the characters
between the quotes, the updated line counter and the input after the closing
quote. -/
def stringLoop (ch : Char) : List Char → Nat → Option (List Char × Nat × List Char)
  | [], _ => none
  | c :: rest, line =>
    if c = ch then some ([], line, rest)
    else
      match stringLoop ch rest (if c = '\n' then line + 1 else line) with
      | none => none
      | some (cont, l', r') => some (c :: cont, l', r')

/-- The block-comment loop of `Scanner::scan_token`'s `/` arm
(scanner.rs:100): advance while `peek != '*' && peek_next != '/'` and not at
end.  Returns the remaining input at loop exit (the two unconditional
`advance` calls that follow are applied by the caller). -/
def blockCommentLoop : List Char → List Char
  | [] => []
  | c :: rest =>
    if c ≠ '*' ∧ rest.headD '\x00' ≠ '/' then blockCommentLoop rest
    else c :: rest

/-- The digit/decimal logic of `Scanner::number` (scanner.rs:171), given the
first digit already consumed; returns the lexeme and the remaining input. -/
def scanNumber (c : Char) (rest : List Char) : (String × List Char) :=
  let ds := rest.takeWhile Char.isDigit
  let r1 := rest.dropWhile Char.isDigit
  match r1 with
  | '.' :: r2 =>
    if (r2.headD '\x00').isDigit then
      let ds2 := r2.takeWhile Char.isDigit
      let r3 := r2.dropWhile Char.isDigit
      (String.mk (c :: ds ++ '.' :: ds2), r3)
    else (String.mk (c :: ds), '.' :: r2)
  | _ => (String.mk (c :: ds), r1)

/-- `is_alpha_numeric` (scanner.rs:244). -/
def isAlphaNumericC (c : Char) : Bool := c.isAlphanum || c = '_'

/-- `Scanner::identifier` (scanner.rs:160), given the first character already
consumed; returns the lexeme and the remaining input. -/
def scanIdentifier (c : Char) (rest : List Char) : (String × List Char) :=
  let ds := rest.takeWhile isAlphaNumericC
  let r1 := rest.dropWhile isAlphaNumericC
  (String.mk (c :: ds), r1)

/-- `Scanner::scan_token` (scanner.rs:54) on the character `c` just consumed
by `advance`, with `rest` the input after it.  Returns `none` for the
`LexError` cases, otherwise an optional token (skip arms produce none), the
updated line counter and the remaining input. -/
def scanToken : Char → List Char → Nat → Option (Option Token × Nat × List Char)
  | '(', rest, line => some (some ⟨.LeftParen, "(", line⟩, line, rest)
  | ')', rest, line => some (some ⟨.RightParen, ")", line⟩, line, rest)
  | '\x7b', rest, line => some (some ⟨.LeftBrace, "\x7b", line⟩, line, rest)
  | '\x7d', rest, line => some (some ⟨.RightBrace, "\x7d", line⟩, line, rest)
  | ',', rest, line => some (some ⟨.Comma, ",", line⟩, line, rest)
  | '.', rest, line => some (some ⟨.Dot, ".", line⟩, line, rest)
  | '-', rest, line => some (some ⟨.Minus, "-", line⟩, line, rest)
  | '+', rest, line => some (some ⟨.Plus, "+", line⟩, line, rest)
  | ';', rest, line => some (some ⟨.Semicolon, ";", line⟩, line, rest)
  | '*', rest, line => some (some ⟨.Star, "*", line⟩, line, rest)
  | '?', rest, line => some (some ⟨.Qmark, "?", line⟩, line, rest)
  | ':', rest, line => some (some ⟨.Colon, ":", line⟩, line, rest)
  | '/', rest, line =>
    match rest with
    | '/' :: r1 => some (none, line, r1.dropWhile (fun x => x ≠ '\n'))
    | '*' :: r1 => some (none, line, (blockCommentLoop r1).drop 2)
    | _ => some (some ⟨.Slash, "/", line⟩, line, rest)
  | '=', rest, line =>
    match rest with
    | '=' :: r1 => some (some ⟨.EqualEqual, "==", line⟩, line, r1)
    | _ => some (some ⟨.Equal, "=", line⟩, line, rest)
  | '!', rest, line =>
    match rest with
    | '=' :: r1 => some (some ⟨.BangEqual, "!=", line⟩, line, r1)
    | _ => some (some ⟨.Bang, "!", line⟩, line, rest)
  | '<', rest, line =>
    match rest with
    | '=' :: r1 => some (some ⟨.LessEqual, "<=", line⟩, line, r1)
    | _ => some (some ⟨.Less, "<", line⟩, line, rest)
  | '>', rest, line =>
    match rest with
    | '=' :: r1 => some (some ⟨.GreaterEqual, ">=", line⟩, line, r1)
    | _ => some (some ⟨.Greater, ">", line⟩, line, rest)
  | '\x00', rest, line => some (some ⟨.EOF, "\x00", line⟩, line, rest)
  | ' ', rest, line => some (none, line, rest)
  | '\t', rest, line => some (none, line, rest)
  | '\r', rest, line => some (none, line, rest)
  | '\x60', rest, line =>
    match stringLoop '\x60' rest line with
    | none => none
    | some (cont, l', r') => some (some ⟨.String, String.mk cont, l'⟩, l', r')
  | '"', rest, line =>
    match stringLoop '"' rest line with
    | none => none
    | some (cont, l', r') => some (some ⟨.String, String.mk cont, l'⟩, l', r')
  | '\x27', rest, line =>
    match stringLoop '\x27' rest line with
    | none => none
    | some (cont, l', r') => some (some ⟨.String, String.mk cont, l'⟩, l', r')
  | '\n', rest, line => some (none, line + 1, rest)
  | c, rest, line =>
    if c.isDigit then
      some (some ⟨.Number, (scanNumber c rest).1, line⟩, line, (scanNumber c rest).2)
    else if c.isAlpha then
      some (some ⟨keywordType (scanIdentifier c rest).1, (scanIdentifier c rest).1,
        line⟩, line, (scanIdentifier c rest).2)
    else none

/-- Result of the scanning loop: success with the scanned tokens and final
line counter, the aborted scan (`LexError`, discarding all tokens), or fuel
exhaustion of the embedding (unreachable for the fuel chosen below, since
every `scan_token` step consumes at least one character). -/
inductive ScanRes where
  | ok (ts : List Token) (line : Nat)
  | lexErr
  | timeout
deriving DecidableEq

/-- The main scanning loop of `Scanner::scan_tokens` (scanner.rs:40): run
`scan_token` until the input is exhausted. -/
def scanLoopF : Nat → List Char → Nat → ScanRes
  | 0, _, _ => .timeout
  | _ + 1, [], line => .ok [] line
  | f + 1, c :: rest, line =>
    match scanToken c rest line with
    | none => .lexErr
    | some (ot, line', rest') =>
      match scanLoopF f rest' line' with
      | .ok ts lf => .ok (match ot with | some t => t :: ts | none => ts) lf
      | .lexErr => .lexErr
      | .timeout => .timeout

/-- `Scanner::scan_tokens` (scanner.rs:39) on a character list: scan the whole
source, then push exactly one EOF token carrying the final line counter. -/
def scanTokensL (l : List Char) (line : Nat) : Option (List Token) :=
  match scanLoopF (l.length + 1) l line with
  | .ok ts lf => some (ts ++ [⟨.EOF, "\x00", lf⟩])
  | _ => none

/-- `Scanner::scan_tokens` on a source string (the scanner starts at line 1,
scanner.rs:33). -/
def scanTokens (s : String) : Option (List Token) := scanTokensL s.data 1

/-! ## Parser state (src/parser.rs) -/

/-- Default token used to model out-of-range indexing (unreachable on the
EOF-terminated token lists the scanner produces). -/
def eofDefault : Token := ⟨.EOF, "\x00", 1⟩

/-- Mirror of the Rust struct `Parser` (parser.rs:5): the token vector and
the `current` cursor. -/
structure PState where
  tokens : List Token
  current : Nat
deriving DecidableEq

/-- `Parser::peek` (parser.rs:630). -/
def PState.peek (s : PState) : Token := s.tokens.getD s.current eofDefault

/-- `Parser::previous` (parser.rs:634). -/
def PState.previous (s : PState) : Token := s.tokens.getD (s.current - 1) eofDefault

/-- `Parser::is_at_end` (parser.rs:626). -/
def PState.isAtEnd (s : PState) : Bool := s.peek.token_type = .EOF

/-- `Parser::advance` (parser.rs:620): step the cursor unless at end, then
return `previous`. -/
def PState.advance (s : PState) : Token × PState :=
  let s' : PState := if s.isAtEnd then s else ⟨s.tokens, s.current + 1⟩
  (s'.previous, s')

/-- `Parser::check` (parser.rs:614). -/
def PState.check (s : PState) (t : TokenType) : Bool :=
  if s.isAtEnd then false else s.peek.token_type == t

/-- `Parser::match_tokens` (parser.rs:603): try each candidate in order,
advancing past the first that checks. -/
def PState.matchTokens (s : PState) : List TokenType → Bool × PState
  | [] => (false, s)
  | t :: rest => if s.check t then (true, (s.advance).2) else s.matchTokens rest

/-- `Parser::consume` (parser.rs:576): advance past a token of the expected
type, or report an error and return `None` without advancing. -/
def PState.consume (s : PState) (t : TokenType) : Option Token × PState :=
  if s.check t then
    let (tok, s') := s.advance
    (some tok, s')
  else (none, s)

/-- The trailing-semicolon loop of `print_statement` (parser.rs:303) and
`var_declaration` (parser.rs:163), fuelled: advance while the current token
is a semicolon.  Each step's guard implies the cursor is in range, so the
fuel chosen in `skipSemis` can never run out. -/
def skipSemisF : Nat → PState → PState
  | 0, s => s
  | f + 1, s =>
    if s.peek.token_type = .Semicolon then skipSemisF f ⟨s.tokens, s.current + 1⟩
    else s

/-- The trailing-semicolon skip with sufficient fuel. -/
def skipSemis (s : PState) : PState := skipSemisF (s.tokens.length + 1 - s.current) s

/-- The loop of `Parser::synchronize` (parser.rs:585), fuelled (the guard
implies the cursor is in range, so the fuel chosen in `synchronizeP` can
never run out). -/
def syncLoopF : Nat → PState → PState
  | 0, s => s
  | f + 1, s =>
    if s.isAtEnd then s
    else if s.previous.token_type = .Semicolon then s
    else if s.peek.token_type = .Var ∨ s.peek.token_type = .For ∨
        s.peek.token_type = .If ∨ s.peek.token_type = .While ∨
        s.peek.token_type = .Print then s
    else syncLoopF f ⟨s.tokens, s.current + 1⟩

/-- `Parser::synchronize` (parser.rs:582): advance once, then skip to a
statement boundary.  Inside the loop the cursor is never at end, so the
`advance` there is an unconditional step, matching the loop body. -/
def synchronizeP (s : PState) : PState :=
  let s1 := (s.advance).2
  syncLoopF (s1.tokens.length + 1 - s1.current) s1

/-! ## AST (src/parser.rs:10 and parser.rs:51) -/

/-- Mirror of the Rust enum `Expr` (parser.rs:11); `Box` indirections are
erased. -/
inductive Expr where
  | Binary (l : Expr) (op : Token) (r : Expr)
  | Grouping (e : Expr)
  | Literal (v : String)
  | Unary (op : Token) (r : Expr)
  | Variable (name : Token)
  | Ternary (c : Expr) (l : Expr) (r : Expr)
  | Assign (name : Token) (e : Expr)
  | Logical (l : Expr) (op : Token) (r : Expr)
deriving DecidableEq

/-- Mirror of the Rust enum `Stmt` (parser.rs:52); `Box`/`Vec` indirections
are erased. -/
inductive Stmt where
  | Expression (e : Expr)
  | Print (e : Expr)
  | Let (name : Token) (init : Option Expr)
  | Block (stmts : List Stmt)
  | If (c : Expr) (t : Stmt) (e : Option Stmt)
  | While (c : Expr) (b : Stmt)

mutual

/-- Decidable equality for `Stmt` (hand-written: the automatic derivation
does not support the nested `List`/`Option` occurrences). -/
def Stmt.decEq : (a b : Stmt) → Decidable (a = b)
  | .Expression e1, .Expression e2 =>
    if h : e1 = e2 then isTrue (by rw [h])
    else isFalse (by intro hc; injection hc with h1; exact h h1)
  | .Print e1, .Print e2 =>
    if h : e1 = e2 then isTrue (by rw [h])
    else isFalse (by intro hc; injection hc with h1; exact h h1)
  | .Let n1 i1, .Let n2 i2 =>
    if h : n1 = n2 ∧ i1 = i2 then isTrue (by rw [h.1, h.2])
    else isFalse (by intro hc; injection hc with h1 h2; exact h ⟨h1, h2⟩)
  | .Block l1, .Block l2 =>
    match Stmt.decEqList l1 l2 with
    | isTrue h => isTrue (by rw [h])
    | isFalse h => isFalse (by intro hc; injection hc with h1; exact h h1)
  | .If c1 t1 e1, .If c2 t2 e2 =>
    match inferInstanceAs (Decidable (c1 = c2)), Stmt.decEq t1 t2,
        Stmt.decEqOpt e1 e2 with
    | isTrue h1, isTrue h2, isTrue h3 => isTrue (by rw [h1, h2, h3])
    | isFalse h1, _, _ =>
      isFalse (by intro hc; injection hc with a b c; exact h1 a)
    | _, isFalse h2, _ =>
      isFalse (by intro hc; injection hc with a b c; exact h2 b)
    | _, _, isFalse h3 =>
      isFalse (by intro hc; injection hc with a b c; exact h3 c)
  | .While c1 b1, .While c2 b2 =>
    match inferInstanceAs (Decidable (c1 = c2)), Stmt.decEq b1 b2 with
    | isTrue h1, isTrue h2 => isTrue (by rw [h1, h2])
    | isFalse h1, _ => isFalse (by intro hc; injection hc with a b; exact h1 a)
    | _, isFalse h2 => isFalse (by intro hc; injection hc with a b; exact h2 b)
  | .Expression _, .Print _ => isFalse (by intro h; exact Stmt.noConfusion h)
  | .Expression _, .Let _ _ => isFalse (by intro h; exact Stmt.noConfusion h)
  | .Expression _, .Block _ => isFalse (by intro h; exact Stmt.noConfusion h)
  | .Expression _, .If _ _ _ => isFalse (by intro h; exact Stmt.noConfusion h)
  | .Expression _, .While _ _ => isFalse (by intro h; exact Stmt.noConfusion h)
  | .Print _, .Expression _ => isFalse (by intro h; exact Stmt.noConfusion h)
  | .Print _, .Let _ _ => isFalse (by intro h; exact Stmt.noConfusion h)
  | .Print _, .Block _ => isFalse (by intro h; exact Stmt.noConfusion h)
  | .Print _, .If _ _ _ => isFalse (by intro h; exact Stmt.noConfusion h)
  | .Print _, .While _ _ => isFalse (by intro h; exact Stmt.noConfusion h)
  | .Let _ _, .Expression _ => isFalse (by intro h; exact Stmt.noConfusion h)
  | .Let _ _, .Print _ => isFalse (by intro h; exact Stmt.noConfusion h)
  | .Let _ _, .Block _ => isFalse (by intro h; exact Stmt.noConfusion h)
  | .Let _ _, .If _ _ _ => isFalse (by intro h; exact Stmt.noConfusion h)
  | .Let _ _, .While _ _ => isFalse (by intro h; exact Stmt.noConfusion h)
  | .Block _, .Expression _ => isFalse (by intro h; exact Stmt.noConfusion h)
  | .Block _, .Print _ => isFalse (by intro h; exact Stmt.noConfusion h)
  | .Block _, .Let _ _ => isFalse (by intro h; exact Stmt.noConfusion h)
  | .Block _, .If _ _ _ => isFalse (by intro h; exact Stmt.noConfusion h)
  | .Block _, .While _ _ => isFalse (by intro h; exact Stmt.noConfusion h)
  | .If _ _ _, .Expression _ => isFalse (by intro h; exact Stmt.noConfusion h)
  | .If _ _ _, .Print _ => isFalse (by intro h; exact Stmt.noConfusion h)
  | .If _ _ _, .Let _ _ => isFalse (by intro h; exact Stmt.noConfusion h)
  | .If _ _ _, .Block _ => isFalse (by intro h; exact Stmt.noConfusion h)
  | .If _ _ _, .While _ _ => isFalse (by intro h; exact Stmt.noConfusion h)
  | .While _ _, .Expression _ => isFalse (by intro h; exact Stmt.noConfusion h)
  | .While _ _, .Print _ => isFalse (by intro h; exact Stmt.noConfusion h)
  | .While _ _, .Let _ _ => isFalse (by intro h; exact Stmt.noConfusion h)
  | .While _ _, .Block _ => isFalse (by intro h; exact Stmt.noConfusion h)
  | .While _ _, .If _ _ _ => isFalse (by intro h; exact Stmt.noConfusion h)

/-- Decidable equality for statement lists. -/
def Stmt.decEqList : (a b : List Stmt) → Decidable (a = b)
  | [], [] => isTrue rfl
  | [], _ :: _ => isFalse (by intro h; cases h)
  | _ :: _, [] => isFalse (by intro h; cases h)
  | a :: as, b :: bs =>
    match Stmt.decEq a b, Stmt.decEqList as bs with
    | isTrue h1, isTrue h2 => isTrue (by rw [h1, h2])
    | isFalse h1, _ => isFalse (by intro hc; injection hc with x y; exact h1 x)
    | _, isFalse h2 => isFalse (by intro hc; injection hc with x y; exact h2 y)

/-- Decidable equality for optional statements. -/
def Stmt.decEqOpt : (a b : Option Stmt) → Decidable (a = b)
  | none, none => isTrue rfl
  | none, some _ => isFalse (by intro h; cases h)
  | some _, none => isFalse (by intro h; cases h)
  | some a, some b =>
    match Stmt.decEq a b with
    | isTrue h => isTrue (by rw [h])
    | isFalse h => isFalse (by intro hc; injection hc with x; exact h x)

end

instance : DecidableEq Stmt := Stmt.decEq

instance : DecidableEq (List Stmt) := Stmt.decEqList

instance : DecidableEq (Option Stmt) := Stmt.decEqOpt

/-- Result of a parser function: Rust's `Option` return plus explicit
constructors for a Rust panic (`unwrap` of `None`) and for fuel exhaustion
of the embedding (which is never a program behaviour). -/
inductive PRes (α : Type) where
  | ok (a : α) (s : PState)
  | fail (s : PState)
  | panicP
  | timeout
deriving DecidableEq

mutual

/-- `Parser::expression` (parser.rs:327). -/
def Parser.expression : Nat → PState → PRes Expr
  | 0, _ => .timeout
  | f + 1, s => Parser.assignment f s

/-- `Parser::assignment` (parser.rs:331): parse an `or` operand; on `=`,
recurse and accept only a `Variable` target (anything else is a reported
error and `None`). -/
def Parser.assignment : Nat → PState → PRes Expr
  | 0, _ => .timeout
  | f + 1, s =>
    match Parser.orP f s with
    | .fail s1 => .fail s1
    | .panicP => .panicP
    | .timeout => .timeout
    | .ok expr s1 =>
      let (m, s2) := s1.matchTokens [.Equal]
      if m then
        match Parser.assignment f s2 with
        | .fail s3 => .fail s3
        | .panicP => .panicP
        | .timeout => .timeout
        | .ok value s3 =>
          match expr with
          | .Variable v => .ok (.Assign v value) s3
          | _ => .fail s3
      else .ok expr s1

/-- `Parser::or` (parser.rs:356). -/
def Parser.orP : Nat → PState → PRes Expr
  | 0, _ => .timeout
  | f + 1, s =>
    match Parser.andP f s with
    | .fail s1 => .fail s1
    | .panicP => .panicP
    | .timeout => .timeout
    | .ok e s1 => Parser.orLoop f e s1

/-- The `while match_tokens [Or]` loop of `Parser::or` (parser.rs:363); a
failed right operand breaks out of the loop (returning the expression built
so far). -/
def Parser.orLoop : Nat → Expr → PState → PRes Expr
  | 0, _, _ => .timeout
  | f + 1, expr, s =>
    let (m, s1) := s.matchTokens [.Or]
    if m then
      let op := s1.previous
      match Parser.andP f s1 with
      | .ok right s2 => Parser.orLoop f (.Logical expr op right) s2
      | .fail s2 => .ok expr s2
      | .panicP => .panicP
      | .timeout => .timeout
    else .ok expr s1

/-- `Parser::and` (parser.rs:375); note the right operand re-parses at the
`equality` level, not `ternary`. -/
def Parser.andP : Nat → PState → PRes Expr
  | 0, _ => .timeout
  | f + 1, s =>
    match Parser.ternary f s with
    | .fail s1 => .fail s1
    | .panicP => .panicP
    | .timeout => .timeout
    | .ok e s1 => Parser.andLoop f e s1

/-- The `while match_tokens [And]` loop of `Parser::and` (parser.rs:382). -/
def Parser.andLoop : Nat → Expr → PState → PRes Expr
  | 0, _, _ => .timeout
  | f + 1, expr, s =>
    let (m, s1) := s.matchTokens [.And]
    if m then
      let op := s1.previous
      match Parser.equality f s1 with
      | .ok right s2 => Parser.andLoop f (.Logical expr op right) s2
      | .fail s2 => .ok expr s2
      | .panicP => .panicP
      | .timeout => .timeout
    else .ok expr s1

/-- `Parser::ternary` (parser.rs:394): right-associative, with the then
branch parsed at `primary` level only. -/
def Parser.ternary : Nat → PState → PRes Expr
  | 0, _ => .timeout
  | f + 1, s =>
    match Parser.equality f s with
    | .fail s1 => .fail s1
    | .panicP => .panicP
    | .timeout => .timeout
    | .ok cond s1 =>
      let (m, s2) := s1.matchTokens [.Qmark]
      if m then
        match Parser.primary f s2 with
        | .fail s3 => .fail s3
        | .panicP => .panicP
        | .timeout => .timeout
        | .ok left s3 =>
          let (mc, s4) := s3.matchTokens [.Colon]
          if mc then
            match Parser.ternary f s4 with
            | .fail s5 => .fail s5
            | .panicP => .panicP
            | .timeout => .timeout
            | .ok right s5 => .ok (.Ternary cond left right) s5
          else .fail s4
      else .ok cond s2

/-- `Parser::equality` (parser.rs:432). -/
def Parser.equality : Nat → PState → PRes Expr
  | 0, _ => .timeout
  | f + 1, s =>
    match Parser.comparison f s with
    | .fail s1 => .fail s1
    | .panicP => .panicP
    | .timeout => .timeout
    | .ok e s1 => Parser.equalityLoop f e s1

/-- The operator loop of `Parser::equality` (parser.rs:439); a failed right
operand breaks. -/
def Parser.equalityLoop : Nat → Expr → PState → PRes Expr
  | 0, _, _ => .timeout
  | f + 1, expr, s =>
    let (m, s1) := s.matchTokens [.BangEqual, .EqualEqual]
    if m then
      let op := s1.previous
      match Parser.comparison f s1 with
      | .ok right s2 => Parser.equalityLoop f (.Binary expr op right) s2
      | .fail s2 => .ok expr s2
      | .panicP => .panicP
      | .timeout => .timeout
    else .ok expr s1

/-- `Parser::comparison` (parser.rs:455). -/
def Parser.comparison : Nat → PState → PRes Expr
  | 0, _ => .timeout
  | f + 1, s =>
    match Parser.term f s with
    | .fail s1 => .fail s1
    | .panicP => .panicP
    | .timeout => .timeout
    | .ok e s1 => Parser.comparisonLoop f e s1

/-- The operator loop of `Parser::comparison` (parser.rs:462); a failed
right operand breaks. -/
def Parser.comparisonLoop : Nat → Expr → PState → PRes Expr
  | 0, _, _ => .timeout
  | f + 1, expr, s =>
    let (m, s1) := s.matchTokens [.Greater, .GreaterEqual, .Less, .LessEqual]
    if m then
      let op := s1.previous
      match Parser.term f s1 with
      | .ok right s2 => Parser.comparisonLoop f (.Binary expr op right) s2
      | .fail s2 => .ok expr s2
      | .panicP => .panicP
      | .timeout => .timeout
    else .ok expr s1

/-- `Parser::term` (parser.rs:479). -/
def Parser.term : Nat → PState → PRes Expr
  | 0, _ => .timeout
  | f + 1, s =>
    match Parser.factor f s with
    | .fail s1 => .fail s1
    | .panicP => .panicP
    | .timeout => .timeout
    | .ok e s1 => Parser.termLoop f e s1

/-- The operator loop of `Parser::term` (parser.rs:486); unlike the other
operator loops, a failed right operand makes the whole call return `None`
(parser.rs:490). -/
def Parser.termLoop : Nat → Expr → PState → PRes Expr
  | 0, _, _ => .timeout
  | f + 1, expr, s =>
    let (m, s1) := s.matchTokens [.Minus, .Plus]
    if m then
      let op := s1.previous
      match Parser.factor f s1 with
      | .ok right s2 => Parser.termLoop f (.Binary expr op right) s2
      | .fail s2 => .fail s2
      | .panicP => .panicP
      | .timeout => .timeout
    else .ok expr s1

/-- `Parser::factor` (parser.rs:503). -/
def Parser.factor : Nat → PState → PRes Expr
  | 0, _ => .timeout
  | f + 1, s =>
    match Parser.unary f s with
    | .fail s1 => .fail s1
    | .panicP => .panicP
    | .timeout => .timeout
    | .ok e s1 => Parser.factorLoop f e s1

/-- The operator loop of `Parser::factor` (parser.rs:510); a failed right
operand breaks. -/
def Parser.factorLoop : Nat → Expr → PState → PRes Expr
  | 0, _, _ => .timeout
  | f + 1, expr, s =>
    let (m, s1) := s.matchTokens [.Slash, .Star]
    if m then
      let op := s1.previous
      match Parser.unary f s1 with
      | .ok right s2 => Parser.factorLoop f (.Binary expr op right) s2
      | .fail s2 => .ok expr s2
      | .panicP => .panicP
      | .timeout => .timeout
    else .ok expr s1

/-- `Parser::unary` (parser.rs:527). -/
def Parser.unary : Nat → PState → PRes Expr
  | 0, _ => .timeout
  | f + 1, s =>
    let (m, s1) := s.matchTokens [.Bang, .Minus]
    if m then
      let op := s1.previous
      match Parser.unary f s1 with
      | .ok right s2 => .ok (.Unary op right) s2
      | .fail s2 => .fail s2
      | .panicP => .panicP
      | .timeout => .timeout
    else Parser.primary f s1

/-- `Parser::primary` (parser.rs:541).  In the grouping arm the inner
`expression()` result is unwrapped (parser.rs:559) - a failure there is a
Rust panic - and the `consume` of the closing parenthesis is ignored
(parser.rs:560). -/
def Parser.primary : Nat → PState → PRes Expr
  | 0, _ => .timeout
  | f + 1, s =>
    let (m1, s1) := s.matchTokens [.False]
    if m1 then .ok (.Literal "false") s1 else
    let (m2, s2) := s1.matchTokens [.True]
    if m2 then .ok (.Literal "true") s2 else
    let (m3, s3) := s2.matchTokens [.Nil]
    if m3 then .ok (.Literal "nil") s3 else
    let (m4, s4) := s3.matchTokens [.Number, .String]
    if m4 then .ok (.Literal s4.previous.lexeme) s4 else
    let (m5, s5) := s4.matchTokens [.LeftParen]
    if m5 then
      match Parser.expression f s5 with
      | .fail _ => .panicP
      | .panicP => .panicP
      | .timeout => .timeout
      | .ok e s6 => .ok (.Grouping e) (s6.consume .RightParen).2
    else
    let (m6, s6) := s5.matchTokens [.Identifier]
    if m6 then .ok (.Variable s6.previous) s6
    else .fail s6

end

mutual

/-- `Parser::declaration` (parser.rs:115): `var` declarations, otherwise a
statement; a failed statement synchronizes and returns `None` (a failed
`var_declaration` is returned directly, without synchronizing). -/
def Parser.declaration : Nat → PState → PRes Stmt
  | 0, _ => .timeout
  | f + 1, s =>
    let (m, s1) := s.matchTokens [.Var]
    if m then Parser.varDeclaration f s1
    else
      match Parser.statement f s1 with
      | .ok st s2 => .ok st s2
      | .fail s2 => .fail (synchronizeP s2)
      | .panicP => .panicP
      | .timeout => .timeout

/-- `Parser::statement` (parser.rs:169): dispatch on the leading token. -/
def Parser.statement : Nat → PState → PRes Stmt
  | 0, _ => .timeout
  | f + 1, s =>
    let (m1, s1) := s.matchTokens [.Print]
    if m1 then Parser.printStatement f s1
    else
      let (m2, s2) := s1.matchTokens [.LeftBrace]
      if m2 then
        match Parser.blockLoop f s2 with
        | .ok sts s3 => .ok (.Block sts) s3
        | .fail s3 => .fail s3
        | .panicP => .panicP
        | .timeout => .timeout
      else
        let (m3, s3) := s2.matchTokens [.If]
        if m3 then Parser.ifStatement f s3
        else
          let (m4, s4) := s3.matchTokens [.While]
          if m4 then Parser.whileStatement f s4
          else
            let (m5, s5) := s4.matchTokens [.For]
            if m5 then Parser.forStatement f s5
            else Parser.expressionStatement f s5

/-- The declaration loop of `Parser::block` (parser.rs:131): collect
declarations until a right brace or end of input, then `consume` the right
brace with the result ignored (parser.rs:141). -/
def Parser.blockLoop : Nat → PState → PRes (List Stmt)
  | 0, _ => .timeout
  | f + 1, s =>
    if ¬(s.check .RightBrace) ∧ ¬s.isAtEnd then
      match Parser.declaration f s with
      | .ok st s1 =>
        match Parser.blockLoop f s1 with
        | .ok sts s2 => .ok (st :: sts) s2
        | r => r
      | .fail s1 => .fail s1
      | .panicP => .panicP
      | .timeout => .timeout
    else .ok [] (s.consume .RightBrace).2

/-- `Parser::var_declaration` (parser.rs:146): identifier, optional
initializer, then skip all trailing semicolons (a failed initializer returns
`None` immediately, without the semicolon skip). -/
def Parser.varDeclaration : Nat → PState → PRes Stmt
  | 0, _ => .timeout
  | f + 1, s =>
    match s.consume .Identifier with
    | (none, s1) => .fail s1
    | (some ident, s1) =>
      let (m, s2) := s1.matchTokens [.Equal]
      if m then
        match Parser.expression f s2 with
        | .ok e s3 => .ok (.Let ident (some e)) (skipSemis s3)
        | .fail s3 => .fail s3
        | .panicP => .panicP
        | .timeout => .timeout
      else .ok (.Let ident none) (skipSemis s2)

/-- `Parser::print_statement` (parser.rs:301): parse the value, then skip
all trailing semicolons (also on a failed value, matching the code order). -/
def Parser.printStatement : Nat → PState → PRes Stmt
  | 0, _ => .timeout
  | f + 1, s =>
    match Parser.expression f s with
    | .ok v s1 => .ok (.Print v) (skipSemis s1)
    | .fail s1 => .fail (skipSemis s1)
    | .panicP => .panicP
    | .timeout => .timeout

/-- `Parser::expression_statement` (parser.rs:314): parse the value, then
consume at most one trailing semicolon (an `if`, not a loop). -/
def Parser.expressionStatement : Nat → PState → PRes Stmt
  | 0, _ => .timeout
  | f + 1, s =>
    match Parser.expression f s with
    | .ok v s1 =>
      .ok (.Expression v)
        (if s1.peek.token_type = .Semicolon then (s1.advance).2 else s1)
    | .fail s1 =>
      .fail (if s1.peek.token_type = .Semicolon then (s1.advance).2 else s1)
    | .panicP => .panicP
    | .timeout => .timeout

/-- `Parser::if_statement` (parser.rs:274): both `consume` calls for the
parentheses have their results ignored. -/
def Parser.ifStatement : Nat → PState → PRes Stmt
  | 0, _ => .timeout
  | f + 1, s =>
    let s1 := (s.consume .LeftParen).2
    match Parser.expression f s1 with
    | .fail s2 => .fail s2
    | .panicP => .panicP
    | .timeout => .timeout
    | .ok cond s2 =>
      let s3 := (s2.consume .RightParen).2
      match Parser.statement f s3 with
      | .fail s4 => .fail s4
      | .panicP => .panicP
      | .timeout => .timeout
      | .ok thenB s4 =>
        let (m, s5) := s4.matchTokens [.Else]
        if m then
          match Parser.statement f s5 with
          | .fail s6 => .fail s6
          | .panicP => .panicP
          | .timeout => .timeout
          | .ok elseB s6 => .ok (.If cond thenB (some elseB)) s6
        else .ok (.If cond thenB none) s5

/-- `Parser::while_statement` (parser.rs:260): both `consume` calls have
their results ignored. -/
def Parser.whileStatement : Nat → PState → PRes Stmt
  | 0, _ => .timeout
  | f + 1, s =>
    let s1 := (s.consume .LeftParen).2
    match Parser.expression f s1 with
    | .fail s2 => .fail s2
    | .panicP => .panicP
    | .timeout => .timeout
    | .ok cond s2 =>
      let s3 := (s2.consume .RightParen).2
      match Parser.statement f s3 with
      | .fail s4 => .fail s4
      | .panicP => .panicP
      | .timeout => .timeout
      | .ok body s4 => .ok (.While cond body) s4

/-- `Parser::for_statement` (parser.rs:198): the leading `(` is a checked
`consume`; the initializer is parsed next (a failed initializer is silently
treated as absent, since the `Option` is only inspected with `if let`). -/
def Parser.forStatement : Nat → PState → PRes Stmt
  | 0, _ => .timeout
  | f + 1, s =>
    match s.consume .LeftParen with
    | (none, s1) => .fail s1
    | (some _, s1) =>
      let (mSemi, s2) := s1.matchTokens [.Semicolon]
      if mSemi then Parser.forAfterInit f none s2
      else
        let (mVar, s3) := s2.matchTokens [.Var]
        if mVar then
          match Parser.varDeclaration f s3 with
          | .ok st s4 => Parser.forAfterInit f (some st) s4
          | .fail s4 => Parser.forAfterInit f none s4
          | .panicP => .panicP
          | .timeout => .timeout
        else
          match Parser.expressionStatement f s3 with
          | .ok st s4 => Parser.forAfterInit f (some st) s4
          | .fail s4 => Parser.forAfterInit f none s4
          | .panicP => .panicP
          | .timeout => .timeout

/-- Continuation of `Parser::for_statement` after the initializer
(parser.rs:215): optional condition (a failure is treated as absent),
checked `;`, optional increment (failure treated as absent), checked `)`,
body, then desugar into `Block`/`While` nodes (parser.rs:240). -/
def Parser.forAfterInit : Nat → Option Stmt → PState → PRes Stmt
  | 0, _, _ => .timeout
  | f + 1, initializer, s =>
    let condStep : PRes (Option Expr) :=
      if ¬(s.check .Semicolon) then
        match Parser.expression f s with
        | .ok e s1 => .ok (some e) s1
        | .fail s1 => .ok none s1
        | .panicP => .panicP
        | .timeout => .timeout
      else .ok none s
    match condStep with
    | .panicP => .panicP
    | .timeout => .timeout
    | .fail s1 => .fail s1
    | .ok condition s1 =>
      match s1.consume .Semicolon with
      | (none, s2) => .fail s2
      | (some _, s2) =>
        let incStep : PRes (Option Expr) :=
          if ¬(s2.check .RightParen) then
            match Parser.expression f s2 with
            | .ok e s3 => .ok (some e) s3
            | .fail s3 => .ok none s3
            | .panicP => .panicP
            | .timeout => .timeout
          else .ok none s2
        match incStep with
        | .panicP => .panicP
        | .timeout => .timeout
        | .fail s3 => .fail s3
        | .ok increment s3 =>
          match s3.consume .RightParen with
          | (none, s4) => .fail s4
          | (some _, s4) =>
            match Parser.statement f s4 with
            | .fail s5 => .fail s5
            | .panicP => .panicP
            | .timeout => .timeout
            | .ok body s5 =>
              let body1 := match increment with
                | some inc => Stmt.Block [body, Stmt.Expression inc]
                | none => body
              let body2 := Stmt.While (condition.getD (Expr.Literal "true")) body1
              let body3 := match initializer with
                | some ini => Stmt.Block [ini, body2]
                | none => body2
              .ok body3 s5

/-- The loop of `Parser::parse` (parser.rs:103): collect declarations until
end of input; any failed declaration makes the whole parse return `None`. -/
def Parser.parseLoop : Nat → PState → PRes (List Stmt)
  | 0, _ => .timeout
  | f + 1, s =>
    if s.isAtEnd then .ok [] s
    else
      match Parser.declaration f s with
      | .fail s1 => .fail s1
      | .panicP => .panicP
      | .timeout => .timeout
      | .ok st s1 =>
        match Parser.parseLoop f s1 with
        | .ok sts s2 => .ok (st :: sts) s2
        | r => r

end

/-- `Parser::parse` on a token list, starting at cursor 0 (parser.rs:100)
with fuel that comfortably covers the grammar depth of the concrete programs
considered here. -/
def parseTokens (ts : List Token) : PRes (List Stmt) :=
  Parser.parseLoop (ts.length * 16 + 64) ⟨ts, 0⟩

/-! ## Display rendering (parser.rs:22 and parser.rs:61) -/

/-- Model of `impl fmt::Display for Expr` (parser.rs:22); the `Logical`
variant falls into the `_ => todo!()` arm (parser.rs:46), modelled as `none`
(a Rust panic). -/
def displayExpr : Expr → Option String
  | .Binary l op r =>
    match displayExpr l, displayExpr r with
    | some ls, some rs =>
      some ("(" ++ ls ++ " " ++ op.lexeme ++ " " ++ rs ++ ")")
    | _, _ => none
  | .Grouping e => (displayExpr e).map (fun s => "(group " ++ s ++ ")")
  | .Literal v => some v
  | .Unary op r =>
    (displayExpr r).map (fun s => "(" ++ op.lexeme ++ " " ++ s ++ ")")
  | .Ternary c l r =>
    match displayExpr c, displayExpr l, displayExpr r with
    | some cs, some ls, some rs =>
      some ("(" ++ cs ++ " ? " ++ ls ++ " : " ++ rs ++ ")")
    | _, _, _ => none
  | .Variable v => some v.lexeme
  | .Assign n e =>
    (displayExpr e).map (fun s => "(" ++ n.lexeme ++ " = " ++ s ++ ")")
  | .Logical _ _ _ => none

mutual

/-- Model of `impl fmt::Display for Stmt` (parser.rs:61); the `While`
variant falls into the `_ => todo!()` arm (parser.rs:93), modelled as
`none`. -/
def displayStmt : Stmt → Option String
  | .Expression e => displayExpr e
  | .Print e => (displayExpr e).map (fun s => "print(" ++ s ++ ")")
  | .Let n none => some ("var " ++ n.lexeme ++ ";")
  | .Let n (some e) =>
    (displayExpr e).map (fun s => "var " ++ n.lexeme ++ " = " ++ s ++ ";")
  | .Block stmts =>
    (displayStmtSeq stmts).map (fun s => "\x7b\n" ++ s ++ "\x7d")
  | .If c t e =>
    match displayExpr c, displayStmt t with
    | some cs, some ts =>
      match e with
      | some alt =>
        (displayStmt alt).map (fun es =>
          "if (" ++ cs ++ ") \x7b\n\t" ++ ts ++ "\n\x7d" ++
            " else \x7b\n\t" ++ es ++ "\n\x7d")
      | none => some ("if (" ++ cs ++ ") \x7b\n\t" ++ ts ++ "\n\x7d" ++ "\n\x7d")
    | _, _ => none
  | .While _ _ => none

/-- The loop of the `Block` display arm (parser.rs:79): each statement on
its own tab-indented line. -/
def displayStmtSeq : List Stmt → Option String
  | [] => some ""
  | st :: rest =>
    match displayStmt st, displayStmtSeq rest with
    | some a, some b => some ("\t" ++ a ++ "\n" ++ b)
    | _, _ => none

end

/-- Rendering of a whole parsed program, one statement's display form per
line (the repository itself only renders single statements through
`Display`; joining with newlines is the embedding's choice and is what C7's
round-trip statement uses). -/
def displayProgram : List Stmt → Option String
  | [] => some ""
  | [st] => displayStmt st
  | st :: rest =>
    match displayStmt st, displayProgram rest with
    | some a, some b => some (a ++ "\n" ++ b)
    | _, _ => none

/-! ## Environment (src/environment.rs) -/

/-- One scope's bindings (`values: HashMap<String, String>`), as an
association list (only `insert`/`get`/`contains_key` are used, so iteration
order never matters). -/
abbrev Scope := List (String × String)

/-- The environment chain (environment.rs:8): the head is the current
scope's bindings and the tail is the `enclosing` chain (an empty tail is
`enclosing: None`).  `Environment::new()` (environment.rs:14) is `[[]]`;
`Environment::with_enclosing(e)` (environment.rs:21) is `[] :: e`. -/
abbrev Env := List Scope

/-- `HashMap::contains_key`. -/
def scopeContains (sc : Scope) (k : String) : Bool := sc.any (fun p => p.1 == k)

/-- `HashMap::get` (cloned). -/
def scopeGet (sc : Scope) (k : String) : Option String :=
  match sc.find? (fun p => p.1 == k) with
  | some p => some p.2
  | none => none

/-- `HashMap::insert`: replace the binding if present, else add it. -/
def scopeInsert (sc : Scope) (k v : String) : Scope :=
  if scopeContains sc k then sc.map (fun p => if p.1 == k then (k, v) else p)
  else (k, v) :: sc

/-- `Environment::define` (environment.rs:28): insert in the current scope
only (the empty-chain case is unreachable; environments are always
nonempty). -/
def envDefine (k v : String) : Env → Env
  | [] => [[(k, v)]]
  | sc :: rest => scopeInsert sc k v :: rest

/-- `Environment::get` (environment.rs:32): current scope first, then the
enclosing chain; `none` is the reported undefined-variable error. -/
def envGet (k : String) : Env → Option String
  | [] => none
  | sc :: rest =>
    if scopeContains sc k then scopeGet sc k
    else
      match rest with
      | [] => none
      | _ :: _ => envGet k rest

/-- `Environment::assign` (environment.rs:50).  When the current scope lacks
the name but an enclosing scope exists, the code recurses into the enclosing
chain and then returns `Some(())` regardless of the recursive call's result
(environment.rs:56): the recursion's own failure report is discarded.  Only
a chain consisting of a single scope that lacks the name returns `None`. -/
def envAssign (k v : String) : Env → Option Unit × Env
  | [] => (none, [])
  | sc :: rest =>
    if scopeContains sc k then (some (), scopeInsert sc k v :: rest)
    else
      match rest with
      | [] => (none, sc :: rest)
      | _ :: _ => (some (), sc :: (envAssign k v rest).2)

/-! ## Interpreter (src/interpreter.rs) -/

/-- `Interpreter::is_truthy` (interpreter.rs:367). -/
def is_truthy (object : String) : Bool :=
  if object = "nil" then false
  else if object = "false" then false
  else true

/-- `Interpreter::is_equals` (interpreter.rs:355). -/
def is_equals (a b : String) : Bool :=
  if a = "nil" ∧ b = "nil" then true
  else if a = "nil" then false
  else a == b

/-- `Interpreter::check_number_operands` (interpreter.rs:343). -/
def check_number_operands (o1 o2 : String) : Option Unit :=
  if is_number o1 ∧ is_number o2 then some () else none

/-- Result of the pure binary-operator dispatch: a value, the `None` return
after a failed operand check, or the `todo!()` panic of the wildcard arm. -/
inductive BRes where
  | ok (v : String)
  | err
  | panicB
deriving DecidableEq

/-- The operator dispatch of `Interpreter::eval_binary` (interpreter.rs:202)
on already-evaluated operand values.  The `Plus` arm (interpreter.rs:274)
adds when both operands parse as numbers, otherwise concatenates when either
is non-numeric text (`is_alpha`), and otherwise reports
"Operands must be two numbers or two strings." and returns `None`; every
other token type falls into the `todo!()` arm (interpreter.rs:289). -/
def evalBinaryOp (op : TokenType) (left right : String) : BRes :=
  match op with
  | .Greater =>
    match check_number_operands left right with
    | none => .err
    | some _ => .ok (boolStr ((parseF64D right).ltF (parseF64D left)))
  | .GreaterEqual =>
    match check_number_operands left right with
    | none => .err
    | some _ => .ok (boolStr ((parseF64D right).leF (parseF64D left)))
  | .Less =>
    match check_number_operands left right with
    | none => .err
    | some _ => .ok (boolStr ((parseF64D left).ltF (parseF64D right)))
  | .LessEqual =>
    match check_number_operands left right with
    | none => .err
    | some _ => .ok (boolStr ((parseF64D left).leF (parseF64D right)))
  | .BangEqual => .ok (boolStr (!is_equals left right))
  | .EqualEqual => .ok (boolStr (is_equals left right))
  | .Minus =>
    match check_number_operands left right with
    | none => .err
    | some _ => .ok (renderF64 ((parseF64D left).sub (parseF64D right)))
  | .Slash =>
    match check_number_operands left right with
    | none => .err
    | some _ => .ok (renderF64 ((parseF64D left).div (parseF64D right)))
  | .Star =>
    match check_number_operands left right with
    | none => .err
    | some _ => .ok (renderF64 ((parseF64D left).mul (parseF64D right)))
  | .Plus =>
    if is_number left ∧ is_number right then
      .ok (renderF64 ((parseF64D left).add (parseF64D right)))
    else if is_alpha left ∨ is_alpha right then .ok (left ++ right)
    else .err
  | _ => .panicB

/-- Result of evaluating an expression: a value with the (possibly mutated)
environment, the `None` failure with the environment as mutated so far, or a
Rust panic. -/
inductive EvRes where
  | ok (v : String) (env : Env)
  | err (env : Env)
  | panicE
deriving DecidableEq

/-- `Interpreter::evaluate` (interpreter.rs:126) with its expression
helpers: `eval_binary` (operands evaluated left then right), `eval_literal`,
`eval_group`, `eval_unary` (which unwraps its operand's result - a failed
operand is a Rust panic, interpreter.rs:302 - and whose non-minus/bang arm
is `unreachable!()`), `eval_ternary` (which unwraps its condition,
interpreter.rs:321), `eval_logical` (any non-`Or` operator short-circuits
like `And`), the `Variable` arm (environment lookup) and the `Assign` arm
(whose call to `Environment::assign` has its result ignored,
interpreter.rs:145). -/
def evaluate : Expr → Env → EvRes
  | .Binary l op r, env =>
    match evaluate l env with
    | .err e1 => .err e1
    | .panicE => .panicE
    | .ok lv e1 =>
      match evaluate r e1 with
      | .err e2 => .err e2
      | .panicE => .panicE
      | .ok rv e2 =>
        match evalBinaryOp op.token_type lv rv with
        | .ok v => .ok v e2
        | .err => .err e2
        | .panicB => .panicE
  | .Literal lit, env => .ok lit env
  | .Grouping e, env => evaluate e env
  | .Unary op r, env =>
    match evaluate r env with
    | .err _ => .panicE
    | .panicE => .panicE
    | .ok v e1 =>
      match op.token_type with
      | .Minus =>
        if is_number v then .ok (renderF64 ((parseF64D v).neg)) e1
        else .err e1
      | .Bang => .ok (boolStr (!is_truthy v)) e1
      | _ => .panicE
  | .Ternary c l r, env =>
    match evaluate c env with
    | .err _ => .panicE
    | .panicE => .panicE
    | .ok cv e1 => if is_truthy cv then evaluate l e1 else evaluate r e1
  | .Variable name, env =>
    match envGet name.lexeme env with
    | some v => .ok v env
    | none => .err env
  | .Assign name e, env =>
    match evaluate e env with
    | .err e1 => .err e1
    | .panicE => .panicE
    | .ok v e1 => .ok v (envAssign name.lexeme v e1).2
  | .Logical l op r, env =>
    match evaluate l env with
    | .err e1 => .err e1
    | .panicE => .panicE
    | .ok lv e1 =>
      if op.token_type = .Or then
        if is_truthy lv then .ok lv e1 else evaluate r e1
      else
        if !(is_truthy lv) then .ok lv e1 else evaluate r e1

/-- Result of executing statements: success or failure with the final
environment and the lines printed so far, a Rust panic (with the lines
printed before it), or fuel exhaustion of the embedding (never a program
behaviour). -/
inductive XRes where
  | ok (env : Env) (out : List String)
  | err (env : Env) (out : List String)
  | panicX (out : List String)
  | timeout
deriving DecidableEq

mutual

/-- `Interpreter::execute` (interpreter.rs:25) with the statement helpers
`let_statement` (interpreter.rs:116: a failed initializer falls back to
"nil" via `unwrap_or`) and `if_statement` (interpreter.rs:87); a `Block`
installs a fresh child environment built from the current one
(interpreter.rs:54). -/
def execute : Nat → Stmt → Env → List String → XRes
  | 0, _, _, _ => .timeout
  | f + 1, stmt, env, out =>
    match stmt with
    | .Expression e =>
      match evaluate e env with
      | .ok _ e1 => .ok e1 out
      | .err e1 => .err e1 out
      | .panicE => .panicX out
    | .Print e =>
      match evaluate e env with
      | .ok v e1 => .ok e1 (out ++ [v])
      | .err e1 => .err e1 out
      | .panicE => .panicX out
    | .Let name init =>
      match init with
      | none => .ok (envDefine name.lexeme "nil" env) out
      | some e =>
        match evaluate e env with
        | .ok v e1 => .ok (envDefine name.lexeme v e1) out
        | .err e1 => .ok (envDefine name.lexeme "nil" e1) out
        | .panicE => .panicX out
    | .Block stmts => executeBlock f stmts ([] :: env) out
    | .If c t e =>
      match evaluate c env with
      | .err e1 => .err e1 out
      | .panicE => .panicX out
      | .ok cv e1 =>
        if is_truthy cv then execute f t e1 out
        else
          match e with
          | some els => execute f els e1 out
          | none => .ok e1 out
    | .While c b => whileLoop f c b env out

/-- `Interpreter::execute_block` (interpreter.rs:100): install the child
environment, run the statements, and after each statement recompute
`cur = self.environment.enclosing.clone().unwrap()` (a panic when the
then-current environment has no enclosing scope); at the end install `cur`.
For an empty statement list `cur` keeps its initial value - the child
environment itself (interpreter.rs:102).  A failed statement returns `None`
with the child environment still installed. -/
def executeBlock : Nat → List Stmt → Env → List String → XRes
  | 0, _, _, _ => .timeout
  | _ + 1, [], env, out => .ok env out
  | f + 1, st :: rest, env, out =>
    match execute f st env out with
    | .err e1 out1 => .err e1 out1
    | .panicX out1 => .panicX out1
    | .timeout => .timeout
    | .ok e1 out1 =>
      match e1 with
      | _ :: encl :: encls =>
        match rest with
        | [] => .ok (encl :: encls) out1
        | _ :: _ => executeBlock f rest e1 out1
      | _ => .panicX out1

/-- `Interpreter::while_statement` (interpreter.rs:79): the condition's
evaluation is unwrapped (a failed condition is a Rust panic) and the body's
result is discarded entirely (a failed body statement does not stop the
loop, and the loop then returns `Some(())`). -/
def whileLoop : Nat → Expr → Stmt → Env → List String → XRes
  | 0, _, _, _, _ => .timeout
  | f + 1, c, b, env, out =>
    match evaluate c env with
    | .err _ => .panicX out
    | .panicE => .panicX out
    | .ok cv e1 =>
      if is_truthy cv then
        match execute f b e1 out with
        | .ok e2 out2 => whileLoop f c b e2 out2
        | .err e2 out2 => whileLoop f c b e2 out2
        | .panicX out2 => .panicX out2
        | .timeout => .timeout
      else .ok e1 out

end

/-- `Interpreter::interpret` (interpreter.rs:14): execute the statements in
order; the first failed statement aborts the rest and returns the failure. -/
def interpret (fuel : Nat) : List Stmt → Env → List String → XRes
  | [], env, out => .ok env out
  | st :: rest, env, out =>
    match execute fuel st env out with
    | .ok e1 out1 => interpret fuel rest e1 out1
    | .err e1 out1 => .err e1 out1
    | .panicX out1 => .panicX out1
    | .timeout => .timeout

/-- Overall outcome of running a source text through the pipeline the way
`Lox::run` (main.rs:64) chains it: scan, parse, then interpret in a fresh
interpreter (`Environment::new()` is the single empty scope). -/
inductive RunRes where
  | scanError
  | parseError
  | parsePanic
  | runOk (out : List String)
  | runErr (out : List String)
  | runPanic (out : List String)
  | fuelOut
deriving DecidableEq

/-- Run a whole source text through scanner, parser and interpreter. -/
def runProgram (src : String) : RunRes :=
  match scanTokens src with
  | none => .scanError
  | some ts =>
    match parseTokens ts with
    | .fail _ => .parseError
    | .panicP => .parsePanic
    | .timeout => .fuelOut
    | .ok stmts _ =>
      match interpret 1000 stmts [[]] [] with
      | .ok _ out => .runOk out
      | .err _ out => .runErr out
      | .panicX out => .runPanic out
      | .timeout => .fuelOut

/-! ## Concrete programs used by the claims -/

/-- Shorthand token constructor. -/
def mkT (tt : TokenType) (lex : String) (line : Nat) : Token := ⟨tt, lex, line⟩

/-- The spec's block-scoping example program (C3). -/
def c3Src : String := "var x = 45; \x7b var y = 45; print x + y; \x7d print x; print y;"

/-- Token list the scanner produces for `c3Src`. -/
def c3Toks : List Token :=
  [mkT .Var "var" 1, mkT .Identifier "x" 1, mkT .Equal "=" 1, mkT .Number "45" 1,
   mkT .Semicolon ";" 1, mkT .LeftBrace "\x7b" 1, mkT .Var "var" 1,
   mkT .Identifier "y" 1, mkT .Equal "=" 1, mkT .Number "45" 1,
   mkT .Semicolon ";" 1, mkT .Print "print" 1, mkT .Identifier "x" 1,
   mkT .Plus "+" 1, mkT .Identifier "y" 1, mkT .Semicolon ";" 1,
   mkT .RightBrace "\x7d" 1, mkT .Print "print" 1, mkT .Identifier "x" 1,
   mkT .Semicolon ";" 1, mkT .Print "print" 1, mkT .Identifier "y" 1,
   mkT .Semicolon ";" 1, mkT .EOF "\x00" 1]

/-- Statement list the parser produces for `c3Src`. -/
def c3Stmts : List Stmt :=
  [.Let (mkT .Identifier "x" 1) (some (.Literal "45")),
   .Block [.Let (mkT .Identifier "y" 1) (some (.Literal "45")),
           .Print (.Binary (.Variable (mkT .Identifier "x" 1)) (mkT .Plus "+" 1)
             (.Variable (mkT .Identifier "y" 1)))],
   .Print (.Variable (mkT .Identifier "x" 1)),
   .Print (.Variable (mkT .Identifier "y" 1))]

/-- A while body whose first statement succeeds and whose second fails (C2):
the failure is swallowed, the loop keeps iterating, and the program continues
afterwards. -/
def c2Src : String := "var i = 0; while (i < 1) \x7b i = i + 1; print y; \x7d print 2;"

/-- Token list the scanner produces for `c2Src`. -/
def c2Toks : List Token :=
  [mkT .Var "var" 1, mkT .Identifier "i" 1, mkT .Equal "=" 1, mkT .Number "0" 1,
   mkT .Semicolon ";" 1, mkT .While "while" 1, mkT .LeftParen "(" 1,
   mkT .Identifier "i" 1, mkT .Less "<" 1, mkT .Number "1" 1,
   mkT .RightParen ")" 1, mkT .LeftBrace "\x7b" 1, mkT .Identifier "i" 1,
   mkT .Equal "=" 1, mkT .Identifier "i" 1, mkT .Plus "+" 1, mkT .Number "1" 1,
   mkT .Semicolon ";" 1, mkT .Print "print" 1, mkT .Identifier "y" 1,
   mkT .Semicolon ";" 1, mkT .RightBrace "\x7d" 1, mkT .Print "print" 1,
   mkT .Number "2" 1, mkT .Semicolon ";" 1, mkT .EOF "\x00" 1]

/-- Statement list the parser produces for `c2Src`. -/
def c2Stmts : List Stmt :=
  [.Let (mkT .Identifier "i" 1) (some (.Literal "0")),
   .While (.Binary (.Variable (mkT .Identifier "i" 1)) (mkT .Less "<" 1) (.Literal "1"))
     (.Block [.Expression (.Assign (mkT .Identifier "i" 1)
        (.Binary (.Variable (mkT .Identifier "i" 1)) (mkT .Plus "+" 1) (.Literal "1"))),
      .Print (.Variable (mkT .Identifier "y" 1))]),
   .Print (.Literal "2")]

/-- A while statement whose condition references an undefined variable
(C2, C10): evaluating the condition fails and the `.unwrap()` panics. -/
def c2bSrc : String := "while (y) print 1;"

/-- Token list for `c2bSrc`. -/
def c2bToks : List Token :=
  [mkT .While "while" 1, mkT .LeftParen "(" 1, mkT .Identifier "y" 1,
   mkT .RightParen ")" 1, mkT .Print "print" 1, mkT .Number "1" 1,
   mkT .Semicolon ";" 1, mkT .EOF "\x00" 1]

/-- Statement list for `c2bSrc`. -/
def c2bStmts : List Stmt :=
  [.While (.Variable (mkT .Identifier "y" 1)) (.Print (.Literal "1"))]

/-- An expression statement negating an undefined variable (C10). -/
def c10aSrc : String := "-y;"

/-- Token list for `c10aSrc`. -/
def c10aToks : List Token :=
  [mkT .Minus "-" 1, mkT .Identifier "y" 1, mkT .Semicolon ";" 1, mkT .EOF "\x00" 1]

/-- Statement list for `c10aSrc`. -/
def c10aStmts : List Stmt :=
  [.Expression (.Unary (mkT .Minus "-" 1) (.Variable (mkT .Identifier "y" 1)))]

/-- A ternary whose condition references an undefined variable (C10). -/
def c10bSrc : String := "y ? 1 : 2;"

/-- Token list for `c10bSrc`. -/
def c10bToks : List Token :=
  [mkT .Identifier "y" 1, mkT .Qmark "?" 1, mkT .Number "1" 1, mkT .Colon ":" 1,
   mkT .Number "2" 1, mkT .Semicolon ";" 1, mkT .EOF "\x00" 1]

/-- Statement list for `c10bSrc`. -/
def c10bStmts : List Stmt :=
  [.Expression (.Ternary (.Variable (mkT .Identifier "y" 1)) (.Literal "1") (.Literal "2"))]

/-- Token list for `print 1;;;` (C4). -/
def c4aToks : List Token :=
  [mkT .Print "print" 1, mkT .Number "1" 1, mkT .Semicolon ";" 1,
   mkT .Semicolon ";" 1, mkT .Semicolon ";" 1, mkT .EOF "\x00" 1]

/-- Token list for `var x = 1;;;` (C4). -/
def c4bToks : List Token :=
  [mkT .Var "var" 1, mkT .Identifier "x" 1, mkT .Equal "=" 1, mkT .Number "1" 1,
   mkT .Semicolon ";" 1, mkT .Semicolon ";" 1, mkT .Semicolon ";" 1, mkT .EOF "\x00" 1]

/-- Token list for `1;` (C4). -/
def c4cToks : List Token :=
  [mkT .Number "1" 1, mkT .Semicolon ";" 1, mkT .EOF "\x00" 1]

/-- Token list for `1;;` (C4). -/
def c4dToks : List Token :=
  [mkT .Number "1" 1, mkT .Semicolon ";" 1, mkT .Semicolon ";" 1, mkT .EOF "\x00" 1]

/-- Token list for `1 + 2` (C7). -/
def c7Toks : List Token :=
  [mkT .Number "1" 1, mkT .Plus "+" 1, mkT .Number "2" 1, mkT .EOF "\x00" 1]

/-- Statement list for `1 + 2` (C7). -/
def c7Stmts : List Stmt :=
  [.Expression (.Binary (.Literal "1") (mkT .Plus "+" 1) (.Literal "2"))]

/-- Token list for the re-scanned display form `(1 + 2)` (C7). -/
def c7bToks : List Token :=
  [mkT .LeftParen "(" 1, mkT .Number "1" 1, mkT .Plus "+" 1, mkT .Number "2" 1,
   mkT .RightParen ")" 1, mkT .EOF "\x00" 1]

/-- Statement list for `(1 + 2)` (C7). -/
def c7bStmts : List Stmt :=
  [.Expression (.Grouping (.Binary (.Literal "1") (mkT .Plus "+" 1) (.Literal "2")))]

/-! ## Lemmas and claim theorems -/

theorem qAdd_eq (a b : ℚ) : qAdd a b = a + b := by
  have ha : (a.den : ℚ) ≠ 0 := by exact_mod_cast a.den_nz
  have hb : (b.den : ℚ) ≠ 0 := by exact_mod_cast b.den_nz
  unfold qAdd
  rw [Rat.mkRat_eq_div]
  push_cast
  conv_rhs => rw [← Rat.num_div_den a, ← Rat.num_div_den b]
  rw [div_add_div _ _ ha hb]
  ring_nf

theorem qMul_eq (a b : ℚ) : qMul a b = a * b := by
  unfold qMul
  rw [Rat.mkRat_eq_div]
  push_cast
  conv_rhs => rw [← Rat.num_div_den a, ← Rat.num_div_den b]
  rw [div_mul_div_comm]

theorem qDiv_eq (a b : ℚ) : qDiv a b = a / b := by
  unfold qDiv
  by_cases hb : b = 0
  · subst hb
    norm_num [mkRat]
  · have hbn : b.num ≠ 0 := Rat.num_ne_zero.mpr hb
    have hrhs : a / b = ((a.num : ℚ) * (b.den : ℚ)) / ((a.den : ℚ) * (b.num : ℚ)) := by
      conv_lhs => rw [← Rat.num_div_den a, ← Rat.num_div_den b]
      rw [div_eq_mul_inv, inv_div, div_mul_div_comm]
    have habs : ((b.num.natAbs : ℚ)) = |(b.num : ℚ)| := by
      rw [← Int.cast_natCast, Int.natCast_natAbs]
      push_cast
      rfl
    split_ifs with hneg
    · rw [Rat.mkRat_eq_div, hrhs]
      push_cast
      rw [habs, abs_of_neg (by exact_mod_cast hneg)]
      rw [mul_neg, neg_div_neg_eq]
    · rw [Rat.mkRat_eq_div, hrhs]
      push_cast
      rw [habs, abs_of_nonneg (by exact_mod_cast (le_of_not_lt hneg))]

/-- The remaining input returned by `stringLoop` is a suffix of its input. -/
theorem stringLoop_suffix (ch : Char) :
    ∀ (l : List Char) (line : Nat) cont l' r',
      stringLoop ch l line = some (cont, l', r') → r' <:+ l := by
  intro l
  induction l with
  | nil => intro line cont l' r' h; simp [stringLoop] at h
  | cons c rest ih =>
    intro line cont l' r' h
    by_cases hc : c = ch
    · simp [stringLoop, hc] at h
      rw [← h.2.2]
      exact (List.suffix_cons c rest)
    · simp only [stringLoop, if_neg hc] at h
      cases hr : stringLoop ch rest (if c = '\n' then line + 1 else line) with
      | none => rw [hr] at h; simp at h
      | some v =>
        obtain ⟨cont0, l0, r0⟩ := v
        rw [hr] at h
        simp at h
        have := ih _ cont0 l0 r0 hr
        rw [← h.2.2]
        exact this.trans (List.suffix_cons c rest)

/-- The result of `blockCommentLoop` is a suffix of its input. -/
theorem blockCommentLoop_suffix :
    ∀ l : List Char, blockCommentLoop l <:+ l := by
  intro l
  induction l with
  | nil => simp [blockCommentLoop]
  | cons c rest ih =>
    by_cases h : c ≠ '*' ∧ rest.headD '\x00' ≠ '/'
    · simp only [blockCommentLoop, if_pos h]
      exact ih.trans (List.suffix_cons c rest)
    · simp only [blockCommentLoop, if_neg h]
      exact List.suffix_refl _

/-- Dropping elements yields a suffix. -/
theorem drop_suffix' (n : Nat) (l : List Char) : l.drop n <:+ l :=
  List.drop_suffix n l

/-- The dropWhile of a list is a suffix of it. -/
theorem dropWhile_suffix' (p : Char → Bool) (l : List Char) :
    l.dropWhile p <:+ l := by
  induction l with
  | nil => simp
  | cons c rest ih =>
    by_cases h : p c
    · rw [List.dropWhile_cons_of_pos h]
      exact ih.trans (List.suffix_cons c rest)
    · rw [List.dropWhile_cons_of_neg h]

/-- The remaining input returned by `scanNumber` is a suffix of its input. -/
theorem scanNumber_suffix (c : Char) (rest : List Char) :
    (scanNumber c rest).2 <:+ rest := by
  have hbase : rest.dropWhile Char.isDigit <:+ rest := dropWhile_suffix' _ _
  simp only [scanNumber]
  split
  next r2 heq =>
    split_ifs
    · have h2 : r2.dropWhile Char.isDigit <:+ r2 := dropWhile_suffix' _ _
      have h3 : r2 <:+ rest := (List.suffix_cons '.' r2).trans (heq ▸ hbase)
      exact h2.trans h3
    · exact heq ▸ hbase
  next heq _ => exact hbase

/-- The remaining input returned by `scanIdentifier` is a suffix of its
input. -/
theorem scanIdentifier_suffix (c : Char) (rest : List Char) :
    (scanIdentifier c rest).2 <:+ rest := dropWhile_suffix' _ _

/-- The remaining input returned by `scanToken` is a suffix of its `rest`
argument. -/
theorem scanToken_suffix (c : Char) (rest : List Char) (line : Nat)
    (ot : Option Token) (l' : Nat) (r' : List Char)
    (h : scanToken c rest line = some (ot, l', r')) : r' <:+ rest := by
  unfold scanToken at h
  split at h <;> (try split at h) <;> (try split_ifs at h)
  all_goals
    first
    | exact Option.noConfusion h
    | (simp only [Option.some.injEq, Prod.mk.injEq] at h
       obtain ⟨-, -, hr⟩ := h
       subst hr
       first
       | exact List.suffix_refl _
       | exact (dropWhile_suffix' _ _).trans (List.suffix_cons _ _)
       | exact ((drop_suffix' 2 _).trans (blockCommentLoop_suffix _)).trans
           (List.suffix_cons _ _)
       | exact List.suffix_cons _ _
       | exact scanNumber_suffix c rest
       | exact scanIdentifier_suffix c rest
       | (rename_i cont l0 r0 heq
          exact stringLoop_suffix _ rest line cont l0 r0 heq))

/-- A cursor whose current token is not EOF is in range. -/
theorem PState.lt_length_of_peek_ne_eof (s : PState)
    (h : s.peek.token_type ≠ .EOF) : s.current < s.tokens.length := by
  by_contra hge
  push_neg at hge
  have : s.peek = eofDefault := by
    simp only [PState.peek]
    exact List.getD_eq_default _ _ hge
  exact h (by rw [this]; rfl)

/-- Glue fact: running a program whose scan and parse results are known
reduces to the interpreter's outcome on the parsed statements. -/
theorem runProgram_stages {src : String} {ts : List Token} {sts : List Stmt}
    {ps : PState} (h1 : scanTokens src = some ts)
    (h2 : parseTokens ts = .ok sts ps) :
    runProgram src =
      (match interpret 1000 sts [[]] [] with
        | .ok _ out => .runOk out
        | .err _ out => .runErr out
        | .panicX out => .runPanic out
        | .timeout => .fuelOut) := by
  simp only [runProgram, h1, h2]

/-- Claim C1 (code bug): `Environment::assign` is claimed to succeed if and
only if some scope in the chain binds the name.  On the two-scope chain
`[[], []]`, where no scope binds `x`, `assign` nevertheless returns success
(`Some(())`) while creating no binding and changing nothing: the
environment.rs:57 recursion's result is discarded and line 58 returns
`Some(())` unconditionally.  Only a single-scope chain lacking the name
fails.  The claim's failure behaviour is therefore wrong for every chain of
two or more scopes. -/
theorem c1_assign_swallows_failure :
    envAssign "x" "1" [[], []] = (some (), [[], []]) ∧
    (([[], []] : Env).all (fun sc => !scopeContains sc "x")) = true ∧
    envAssign "x" "1" [[]] = (none, [[]]) := by
  refine ⟨by decide, by decide, by decide⟩

set_option maxHeartbeats 2000000 in
/-- Claim C2 (code bug): `interpret` does abort on a failing *top-level*
statement, but `while_statement` (interpreter.rs:79) discards the body's
result, so in `c2Src` the failing `print y` does not stop the loop, the
loop exits normally once the incremented counter falsifies the condition,
the trailing `print 2` still runs (printing "2"), and `interpret` returns
success - where the claim requires that nothing after the failure executes
and the call fails.  A failing while *condition* does not make `interpret`
return failure either: the `.unwrap()` on the condition's evaluation
(interpreter.rs:80) is a Rust panic, shown by `c2bSrc`. -/
theorem c2_while_swallows_failure :
    scanTokens c2Src = some c2Toks ∧
    parseTokens c2Toks = .ok c2Stmts ⟨c2Toks, 25⟩ ∧
    interpret 1000 c2Stmts [[]] [] = .ok [[], [("i", "1")]] ["2"] ∧
    runProgram c2Src = .runOk ["2"] ∧
    scanTokens c2bSrc = some c2bToks ∧
    parseTokens c2bToks = .ok c2bStmts ⟨c2bToks, 7⟩ ∧
    interpret 1000 c2bStmts [[]] [] = .panicX [] ∧
    runProgram c2bSrc = .runPanic [] := by
  have h1 : scanTokens c2Src = some c2Toks := by decide
  have h2 : parseTokens c2Toks = .ok c2Stmts ⟨c2Toks, 25⟩ := by decide
  have h3 : interpret 1000 c2Stmts [[]] [] = .ok [[], [("i", "1")]] ["2"] := by decide
  have h4 : scanTokens c2bSrc = some c2bToks := by decide
  have h5 : parseTokens c2bToks = .ok c2bStmts ⟨c2bToks, 7⟩ := by decide
  have h6 : interpret 1000 c2bStmts [[]] [] = .panicX [] := by decide
  have g1 := runProgram_stages h1 h2
  rw [h3] at g1
  have g2 := runProgram_stages h4 h5
  rw [h6] at g2
  exact ⟨h1, h2, h3, g1, h4, h5, h6, g2⟩

/-- Claim C3, counterexample: executing an *empty* block from the
environment `[[("x", "1")]]` leaves the freshly created child environment
`[[], [("x", "1")]]` installed - not the environment that held before entry,
because `execute_block`'s `cur` variable (interpreter.rs:102) is initialised
to the child environment and the restoring loop body never runs. -/
theorem c3_empty_block_counterexample :
    execute 2 (.Block []) [[("x", "1")]] [] = .ok [[], [("x", "1")]] [] ∧
    ([[], [("x", "1")]] : Env) ≠ [[("x", "1")]] := by
  refine ⟨by decide, by decide⟩

set_option maxHeartbeats 2000000 in
/-- Claim C3, amended: every `Block` runs its statements in a freshly
created child environment whose parent is the environment current at entry,
and for a *non-empty* block the environment after each statement's parent is
restored on completion; for an *empty* block the interpreter instead leaves
the fresh child installed.  The spec's example program behaves as claimed:
it prints "90", then "45", then fails with the undefined-variable runtime
error and produces no further output. -/
theorem c3_block_scoping_amended :
    (∀ (f : Nat) (env : Env) (out : List String) (stmts : List Stmt),
      execute (f + 1) (.Block stmts) env out = executeBlock f stmts ([] :: env) out) ∧
    (∀ (f : Nat) (env : Env) (out : List String),
      execute (f + 2) (.Block []) env out = .ok ([] :: env) out) ∧
    scanTokens c3Src = some c3Toks ∧
    parseTokens c3Toks = .ok c3Stmts ⟨c3Toks, 23⟩ ∧
    interpret 1000 c3Stmts [[]] [] = .err [[("x", "45")]] ["90", "45"] ∧
    runProgram c3Src = .runErr ["90", "45"] := by
  have h1 : scanTokens c3Src = some c3Toks := by decide
  have h2 : parseTokens c3Toks = .ok c3Stmts ⟨c3Toks, 23⟩ := by decide
  have h3 : interpret 1000 c3Stmts [[]] [] = .err [[("x", "45")]] ["90", "45"] := by
    decide
  have g1 := runProgram_stages h1 h2
  rw [h3] at g1
  exact ⟨fun _ _ _ _ => rfl, fun _ _ _ => rfl, h1, h2, h3, g1⟩

/-- Claim C5 (code bug): the block-comment loop (scanner.rs:100) stops as
soon as `peek == '*'` *or* `peek_next == '/'` (the condition should only
stop at the two-character closer), then blindly consumes two characters.
For the comment body `x*y` (which contains no closing `*/` of its own) the
scanner stops at the interior star, consumes `*y`, and resumes *inside* the
comment: scanning `/*x*y*/1` yields `* / 1` tokens instead of the claimed
tokens of `1` alone.  A body with no `*` and no interior `/` is skipped
correctly (third conjunct). -/
theorem c5_block_comment_mis_scan :
    scanTokens "/*x*y*/1" =
      some [mkT .Star "*" 1, mkT .Slash "/" 1, mkT .Number "1" 1, mkT .EOF "\x00" 1] ∧
    scanTokens "1" = some [mkT .Number "1" 1, mkT .EOF "\x00" 1] ∧
    scanTokens "/*ab*/1" = some [mkT .Number "1" 1, mkT .EOF "\x00" 1] ∧
    [mkT .Star "*" 1, mkT .Slash "/" 1, mkT .Number "1" 1, mkT .EOF "\x00" 1] ≠
      [mkT .Number "1" 1, mkT .EOF "\x00" 1] := by
  refine ⟨by decide, by decide, by decide, by decide⟩

set_option maxHeartbeats 2000000 in
/-- Claim C10 (code bug): evaluation is claimed total (failure signals, never
panics), but `eval_unary` unwraps its operand's result (interpreter.rs:302),
`eval_ternary` unwraps its condition (interpreter.rs:321), and
`while_statement` unwraps its condition (interpreter.rs:80); in all three
cases an undefined-variable failure in the subexpression is a Rust panic
that aborts the host process rather than a returned failure. -/
theorem c10_unwrap_panics :
    interpret 10 c10aStmts [[]] [] = .panicX [] ∧
    interpret 10 c10bStmts [[]] [] = .panicX [] ∧
    interpret 10 c2bStmts [[]] [] = .panicX [] ∧
    runProgram c10aSrc = .runPanic [] ∧
    runProgram c10bSrc = .runPanic [] ∧
    runProgram c2bSrc = .runPanic [] := by
  have h1 : scanTokens c10aSrc = some c10aToks := by decide
  have h2 : parseTokens c10aToks = .ok c10aStmts ⟨c10aToks, 3⟩ := by decide
  have h3 : interpret 1000 c10aStmts [[]] [] = .panicX [] := by decide
  have h4 : scanTokens c10bSrc = some c10bToks := by decide
  have h5 : parseTokens c10bToks = .ok c10bStmts ⟨c10bToks, 6⟩ := by decide
  have h6 : interpret 1000 c10bStmts [[]] [] = .panicX [] := by decide
  have h7 : scanTokens c2bSrc = some c2bToks := by decide
  have h8 : parseTokens c2bToks = .ok c2bStmts ⟨c2bToks, 7⟩ := by decide
  have h9 : interpret 1000 c2bStmts [[]] [] = .panicX [] := by decide
  have g1 := runProgram_stages h1 h2
  rw [h3] at g1
  have g2 := runProgram_stages h4 h5
  rw [h6] at g2
  have g3 := runProgram_stages h7 h8
  rw [h9] at g3
  exact ⟨by decide, by decide, by decide, g1, g2, g3⟩

/-- The interpreter's `is_alpha` is the exact negation of `is_number`
(both are defined from `parse::<f64>()`, interpreter.rs:374 and 378). -/
theorem is_alpha_eq_not_is_number (s : String) : is_alpha s = !is_number s := by
  unfold is_alpha is_number
  cases parseF64 s <;> rfl

/-- Claim C8 (confirmed): in the `+` arm of `eval_binary`
(interpreter.rs:274), if both already-evaluated operands parse as 64-bit
floats the result is the textual form of their sum; otherwise at least one
operand is non-numeric text and the result is their concatenation; under
this numeric-first rule the arm never returns the failure (`None`) and never
reaches the `todo!()` arm - its error branch is dead because `is_alpha` is
the negation of `is_number`. -/
theorem c8_plus_numeric_first (l r : String) :
    (is_number l = true → is_number r = true →
      evalBinaryOp .Plus l r = .ok (renderF64 ((parseF64D l).add (parseF64D r)))) ∧
    (is_number l = false ∨ is_number r = false →
      evalBinaryOp .Plus l r = .ok (l ++ r)) ∧
    evalBinaryOp .Plus l r ≠ .err ∧
    evalBinaryOp .Plus l r ≠ .panicB := by
  cases hl : is_number l <;> cases hr : is_number r <;>
    simp [evalBinaryOp, is_alpha_eq_not_is_number, hl, hr]

/-- Claim C8 witness: concrete instances of both branches. -/
theorem c8_plus_numeric_first_witness :
    evalBinaryOp .Plus "1" "2" = .ok (renderF64 ((parseF64D "1").add (parseF64D "2"))) ∧
    evalBinaryOp .Plus "a" "2" = .ok ("a" ++ "2") :=
  ⟨(c8_plus_numeric_first "1" "2").1 (by decide) (by decide),
   (c8_plus_numeric_first "a" "2").2.1 (Or.inl (by decide))⟩

/-- Claim C9 (confirmed): `is_equals` (interpreter.rs:355) returns true
exactly when both operands are the text "nil", or the left operand is not
"nil" and the two texts are identical; the `==`/`!=` arms of `eval_binary`
(interpreter.rs:239) return that value and its negation as text; no numeric
coercion happens, so the values "1" and "1.0" compare unequal. -/
theorem c9_equality_textual (a b : String) :
    (is_equals a b = true ↔ (a = "nil" ∧ b = "nil") ∨ (a ≠ "nil" ∧ a = b)) ∧
    evalBinaryOp .EqualEqual a b = .ok (boolStr (is_equals a b)) ∧
    evalBinaryOp .BangEqual a b = .ok (boolStr (!is_equals a b)) ∧
    is_equals "1" "1.0" = false := by
  refine ⟨?_, rfl, rfl, by decide⟩
  unfold is_equals
  split_ifs with h1 h2
  · simp [h1.1, h1.2]
  · subst h2
    simp only [not_and] at h1
    simp [h1]
  · have ha : a ≠ "nil" := h2
    simp [ha, beq_iff_eq]

/-- Reading an appended list exactly at the first part's length gives the
second part's head. -/
theorem getD_append_length (l₁ l₂ : List Token) (d : Token) :
    (l₁ ++ l₂).getD l₁.length d = l₂.getD 0 d := by
  simp [List.getD_eq_getElem?_getD, List.getElem?_append_right (le_refl l₁.length)]

/-- The fuelled semicolon-skip loop consumes exactly the maximal run of
semicolons at the cursor, provided the fuel exceeds the run's length. -/
theorem skipSemisF_spec :
    ∀ (semis : List Token) (g : Nat) (pre post : List Token) (t : Token),
      (∀ x ∈ semis, x.token_type = .Semicolon) → t.token_type ≠ .Semicolon →
      skipSemisF (g + semis.length + 1) ⟨pre ++ semis ++ t :: post, pre.length⟩ =
        ⟨pre ++ semis ++ t :: post, pre.length + semis.length⟩ := by
  intro semis
  induction semis with
  | nil =>
    intro g pre post t _ ht
    have hpeek : (PState.peek ⟨pre ++ [] ++ t :: post, pre.length⟩) = t := by
      show (pre ++ [] ++ t :: post).getD pre.length eofDefault = t
      rw [List.append_nil, getD_append_length]
      rfl
    simp only [skipSemisF, hpeek, List.length_nil, Nat.add_zero]
    rw [if_neg ht]
  | cons s rest ih =>
    intro g pre post t hsem ht
    have hs : s.token_type = .Semicolon := hsem s (List.mem_cons_self s rest)
    have hpeek : (PState.peek ⟨pre ++ (s :: rest) ++ t :: post, pre.length⟩) = s := by
      show (pre ++ (s :: rest) ++ t :: post).getD pre.length eofDefault = s
      rw [List.append_assoc, getD_append_length]
      rfl
    simp only [skipSemisF, hpeek]
    rw [if_pos hs]
    have heq : pre ++ (s :: rest) ++ t :: post = (pre ++ [s]) ++ rest ++ t :: post := by
      simp
    have hlen : (pre ++ [s]).length = pre.length + 1 := by simp
    have := ih g (pre ++ [s]) post t
      (fun x hx => hsem x (List.mem_cons_of_mem s hx)) ht
    rw [heq]
    rw [hlen] at this
    have hcur : pre.length + 1 + rest.length = pre.length + (s :: rest).length := by
      simp [List.length_cons]
      omega
    rw [hcur] at this
    exact this

/-- The semicolon skip of `print_statement`/`var_declaration` consumes all
consecutive semicolons at the cursor (its self-computed fuel always
suffices). -/
theorem skipSemis_skips_all (pre semis post : List Token) (t : Token)
    (hsem : ∀ x ∈ semis, x.token_type = .Semicolon)
    (ht : t.token_type ≠ .Semicolon) :
    skipSemis ⟨pre ++ semis ++ t :: post, pre.length⟩ =
      ⟨pre ++ semis ++ t :: post, pre.length + semis.length⟩ := by
  unfold skipSemis
  have hlen2 : (pre ++ semis ++ t :: post).length
      = pre.length + semis.length + post.length + 1 := by
    simp [List.length_append]
    omega
  have hfuel : (pre ++ semis ++ t :: post).length + 1 - pre.length
      = (post.length + 1) + semis.length + 1 := by
    rw [hlen2]
    omega
  rw [hfuel]
  exact skipSemisF_spec semis (post.length + 1) pre post t hsem ht

/-- Claim C4, counterexample: the claim says all three statement forms
consume every trailing semicolon for every `k`; but after an expression
statement the parser consumes at most one (`expression_statement` uses an
`if`, parser.rs:316, where `print_statement`/`var_declaration` use a
`while`), so with two trailing semicolons the leftover semicolon makes the
next declaration fail and the whole parse of `1;;` returns failure. -/
theorem c4_expression_statement_counterexample :
    scanTokens "1;;" = some c4dToks ∧ parseTokens c4dToks = .fail ⟨c4dToks, 3⟩ := by
  refine ⟨by decide, by decide⟩

/-- Claim C4, amended: after a print statement or a var declaration the
parser consumes all consecutive trailing semicolons (both call the skip
loop, whose behaviour is the first conjunct, with `k = 3` instances
following); after an expression statement it consumes at most one, so `1;`
parses but `1;;` fails. -/
theorem c4_semicolon_skipping_amended :
    (∀ (pre semis post : List Token) (t : Token),
      (∀ x ∈ semis, x.token_type = .Semicolon) →
      t.token_type ≠ .Semicolon →
      skipSemis ⟨pre ++ semis ++ t :: post, pre.length⟩ =
        ⟨pre ++ semis ++ t :: post, pre.length + semis.length⟩) ∧
    scanTokens "print 1;;;" = some c4aToks ∧
    parseTokens c4aToks = .ok [.Print (.Literal "1")] ⟨c4aToks, 5⟩ ∧
    scanTokens "var x = 1;;;" = some c4bToks ∧
    parseTokens c4bToks =
      .ok [.Let (mkT .Identifier "x" 1) (some (.Literal "1"))] ⟨c4bToks, 7⟩ ∧
    scanTokens "1;" = some c4cToks ∧
    parseTokens c4cToks = .ok [.Expression (.Literal "1")] ⟨c4cToks, 2⟩ ∧
    scanTokens "1;;" = some c4dToks ∧
    parseTokens c4dToks = .fail ⟨c4dToks, 3⟩ := by
  refine ⟨skipSemis_skips_all, by decide, by decide, by decide, by decide,
    by decide, by decide, by decide, by decide⟩

/-- Claim C4 witness: the skip loop applied to a concrete run of two
semicolons before an EOF token. -/
theorem c4_semicolon_skipping_witness :
    skipSemis ⟨[mkT .Number "1" 1] ++
        [mkT .Semicolon ";" 1, mkT .Semicolon ";" 1] ++ mkT .EOF "\x00" 1 :: [],
      ([mkT .Number "1" 1] : List Token).length⟩ =
      ⟨[mkT .Number "1" 1] ++
        [mkT .Semicolon ";" 1, mkT .Semicolon ";" 1] ++ mkT .EOF "\x00" 1 :: [],
      ([mkT .Number "1" 1] : List Token).length +
        ([mkT .Semicolon ";" 1, mkT .Semicolon ";" 1] : List Token).length⟩ :=
  c4_semicolon_skipping_amended.1 [mkT .Number "1" 1]
    [mkT .Semicolon ";" 1, mkT .Semicolon ";" 1] [] (mkT .EOF "\x00" 1)
    (by decide) (by decide)

/-- Claim C7, counterexample: the statement parsed from `1 + 2` renders as
`(1 + 2)` (the binary display arm parenthesises, parser.rs:26), and
re-scanning and re-parsing that rendering yields a tree with an extra
`Grouping` node - not a structurally equal tree, and the difference is not
one of whitespace or comments. -/
theorem c7_roundtrip_counterexample :
    scanTokens "1 + 2" = some c7Toks ∧
    parseTokens c7Toks = .ok c7Stmts ⟨c7Toks, 3⟩ ∧
    displayProgram c7Stmts = some "(1 + 2)" ∧
    scanTokens "(1 + 2)" = some c7bToks ∧
    parseTokens c7bToks = .ok c7bStmts ⟨c7bToks, 5⟩ ∧
    c7bStmts ≠ c7Stmts := by
  refine ⟨by decide, by decide, by decide, by decide, by decide, by decide⟩

/-- Claim C7, amended: the display form is not a faithful inverse in
general (see the counterexample - binary expression statements re-parse
wrapped in an extra `Grouping` node, and forms such as `(group ...)` or
`print(...)` are debug renderings); the round-trip does hold in restricted
cases such as a numeric-literal expression statement, whose display is its
own source text. -/
theorem c7_roundtrip_amended :
    scanTokens "12" = some [mkT .Number "12" 1, mkT .EOF "\x00" 1] ∧
    parseTokens [mkT .Number "12" 1, mkT .EOF "\x00" 1] =
      .ok [.Expression (.Literal "12")] ⟨[mkT .Number "12" 1, mkT .EOF "\x00" 1], 1⟩ ∧
    displayProgram [.Expression (.Literal "12")] = some "12" := by
  refine ⟨by decide, by decide, by decide⟩

set_option maxHeartbeats 1000000 in
/-- No keyword-table lookup ever yields the EOF token type. -/
theorem keywordType_ne_eof (s : String) : keywordType s ≠ .EOF := by
  intro h
  unfold keywordType at h
  split_ifs at h

/-- A `scan_token` step on a non-NUL character never produces an EOF-typed
token: the only arm that does is the `'\0'` arm (scanner.rs:139). -/
theorem scanToken_no_eof (c : Char) (rest : List Char) (line : Nat)
    (t : Token) (l' : Nat) (r' : List Char) (hc : c ≠ '\x00')
    (h : scanToken c rest line = some (some t, l', r')) :
    t.token_type ≠ .EOF := by
  unfold scanToken at h
  split at h <;> (try split at h) <;> (try split_ifs at h)
  all_goals
    first
    | exact Option.noConfusion h
    | exact absurd rfl hc
    | (injection h with h1
       injection h1 with h3 h4
       first
       | exact Option.noConfusion h3
       | (injection h3 with h5
          rw [← h5]
          first
          | exact keywordType_ne_eof _
          | (intro hx
             exact TokenType.noConfusion hx)))

/-- Scanning loop invariant: on a NUL-free source, no token produced by the
scanning loop is EOF-typed. -/
theorem scanLoopF_no_eof :
    ∀ (fuel : Nat) (src : List Char) (line : Nat) (ts : List Token) (lf : Nat),
      (∀ c ∈ src, c ≠ '\x00') → scanLoopF fuel src line = .ok ts lf →
      ∀ t ∈ ts, t.token_type ≠ .EOF := by
  intro fuel
  induction fuel with
  | zero =>
    intro src line ts lf _ h
    exact ScanRes.noConfusion h
  | succ f ih =>
    intro src line ts lf hsrc h
    match src with
    | [] =>
      simp only [scanLoopF] at h
      obtain ⟨hts, -⟩ := ScanRes.ok.inj h
      subst hts
      intro t ht
      exact absurd ht (List.not_mem_nil t)
    | c :: rest =>
      simp only [scanLoopF] at h
      split at h
      · exact ScanRes.noConfusion h
      · rename_i ot line' rest' heq
        split at h
        · rename_i ts0 lf0 heq2
          obtain ⟨hts, -⟩ := ScanRes.ok.inj h
          have hsub : ∀ x ∈ rest', x ∈ rest :=
            fun x hx => (scanToken_suffix c rest line ot line' rest' heq).subset hx
          have hrec := ih rest' line' ts0 lf0
            (fun x hx => hsrc x (List.mem_cons_of_mem c (hsub x hx))) heq2
          cases ot with
          | none =>
            subst hts
            exact hrec
          | some t0 =>
            subst hts
            intro t ht
            rcases List.mem_cons.mp ht with h1 | h2
            · rw [h1]
              exact scanToken_no_eof c rest line t0 line' rest'
                (hsrc c (List.mem_cons_self c rest)) heq
            · exact hrec t h2
        · exact ScanRes.noConfusion h
        · exact ScanRes.noConfusion h

/-- Claim C6, counterexample: scanning succeeds on the one-character source
consisting of a NUL character, but the returned sequence contains *two*
EOF-typed tokens - the `'\0'` arm of `scan_token` (scanner.rs:139) pushes
one for the source character, and `scan_tokens` appends the final one - so
the EOF token is neither unique nor produced only at the end. -/
theorem c6_nul_counterexample :
    scanTokens "\x00" = some [mkT .EOF "\x00" 1, mkT .EOF "\x00" 1] ∧
    ([mkT .EOF "\x00" 1, mkT .EOF "\x00" 1].countP
      (fun t => t.token_type == .EOF)) = 2 := by
  refine ⟨by decide, by decide⟩

/-- Claim C6, amended: for every source containing no NUL character on
which scanning succeeds, the returned token sequence is the loop's tokens
followed by exactly one EOF token whose line number is the scanner's final
line counter, and no earlier token is EOF-typed - so the EOF token is
unique and final. -/
theorem c6_single_eof_amended :
    ∀ (src : List Char) (ts : List Token) (lf : Nat),
      (∀ c ∈ src, c ≠ '\x00') →
      scanLoopF (src.length + 1) src 1 = .ok ts lf →
      scanTokensL src 1 = some (ts ++ [⟨.EOF, "\x00", lf⟩]) ∧
      (∀ t ∈ ts, t.token_type ≠ .EOF) := by
  intro src ts lf hsrc h
  constructor
  · unfold scanTokensL
    rw [h]
  · exact scanLoopF_no_eof (src.length + 1) src 1 ts lf hsrc h

/-- Claim C6 witness: the amended statement applied to the source `1+2`. -/
theorem c6_single_eof_witness :
    scanTokensL "1+2".data 1 =
      some ([mkT .Number "1" 1, mkT .Plus "+" 1, mkT .Number "2" 1] ++
        [⟨.EOF, "\x00", 1⟩]) ∧
    (∀ t ∈ [mkT .Number "1" 1, mkT .Plus "+" 1, mkT .Number "2" 1],
      t.token_type ≠ .EOF) :=
  c6_single_eof_amended "1+2".data
    [mkT .Number "1" 1, mkT .Plus "+" 1, mkT .Number "2" 1] 1
    (by decide) (by decide)
